import Mathlib

set_option autoImplicit false

/-!
Verification of the mediasoup-nestjs signaling core.

The definitions below are a shallow embedding of the TypeScript source:

* `src/src/mediasoup/services/mediasoup.service.ts` (worker pool / scheduler),
* `src/src/mediasoup/types/room.mediasoup.ts` (`MediasoupRoom`),
* `src/src/mediasoup/mediasoup.module.ts` (`RoomClient` / `IMediasoupClient`).

JavaScript `Map`s are modelled as association lists keyed by strings, a
worker table (`Object.entries(this._workers)`) as a list of
(index, clientsCount) pairs in ascending key order, and thrown/caught
exceptions as `Except` values that the catching wrapper converts to the
value actually returned to the caller.
-/

namespace MS

/-! ## Worker pool (mediasoup.service.ts)

`_workers` is a JS object with numeric keys `0 .. poolSize-1`;
`Object.entries` enumerates integer-like keys in ascending order, so the
pool is modelled as a list of `(index, clientsCount)` pairs whose first
components are strictly increasing. -/

/-- The body of the `reduce` in `getOptimalWorkerIndex`: keep `prev` only
when its `clientsCount` is strictly smaller, otherwise take `curr`. -/
def pickWorker (e : Nat × Nat) (es : List (Nat × Nat)) : Nat × Nat :=
  es.foldl (fun prev curr => if prev.2 < curr.2 then prev else curr) e

/-- `MediasoupService.getOptimalWorkerIndex` (mediasoup.service.ts, lines
114-124; the same code appears in wss.gateway.ts, lines 159-169):
`Object.entries(this._workers).reduce(...)` and `parseInt` of the key.
JS `reduce` with no initial value uses the first entry as accumulator
(and throws on an empty pool, which cannot happen after `createWorkers`). -/
def getOptimalWorkerIndex (workers : List (Nat × Nat)) : Nat :=
  match workers with
  | [] => 0
  | e :: es => (pickWorker e es).1

/-- `MediasoupService.updateWorkerStats` (mediasoup.service.ts, lines
129-155): recompute each slot's `clientsCount` by summing the
`clientsCount` of rooms placed on that slot; slots with no rooms are
zeroed. A room is modelled as `(workerIndex, clientsCount)`. -/
def updateWorkerStats (poolSize : Nat) (rooms : List (Nat × Nat)) :
    List (Nat × Nat) :=
  (List.range poolSize).map (fun i =>
    (i, (rooms.filter (fun r => r.1 == i)).foldl (fun acc r => acc + r.2) 0))

/-! ## Data model (mediasoup.module.ts / room.mediasoup.ts)

JS `Map<string, T>` objects are modelled as association lists
`List (String × T)`; `aget`, `aset` and `adel` model `get`, `set` and
`delete`. RTP capabilities are modelled as a list of codec identifiers
(`consume` only tests them for presence and hands them to the router's
`canConsume`, which is modelled as an explicit function parameter). -/

def aget {α : Type} (m : List (String × α)) (k : String) : Option α :=
  (m.find? (fun p => p.1 == k)).map (fun p => p.2)

def aset {α : Type} (m : List (String × α)) (k : String) (v : α) :
    List (String × α) :=
  (k, v) :: m.filter (fun p => p.1 != k)

def adel {α : Type} (m : List (String × α)) (k : String) :
    List (String × α) :=
  m.filter (fun p => p.1 != k)

/-- `appData.mediaTag`: selects the producer slot / consumer map. -/
inductive MediaTag
  | audio
  | video
  | screenMedia
  deriving DecidableEq, Repr, Fintype

/-- mediasoup `MediaKind` (a consumer's `kind` equals its producer's). -/
inductive MediaKind
  | audio
  | video
  deriving DecidableEq, Repr

abbrev RtpCaps := List Nat

/-- A worker-side producer handle: the fields of the mediasoup `Producer`
object that the room reads or writes (`id`, `kind`, `appData.mediaTag`,
`paused`, `closed`). -/
structure Producer where
  id : Nat
  kind : MediaKind
  mediaTag : MediaTag
  paused : Bool
  closed : Bool
  deriving DecidableEq, Repr

/-- A worker-side consumer handle (fields the room reads or writes). -/
structure Consumer where
  id : Nat
  producerId : Nat
  kind : MediaKind
  paused : Bool
  closed : Bool
  deriving DecidableEq, Repr

/-- A WebRTC transport handle; `maxIncomingBitrate` records the last
`setMaxIncomingBitrate` call. -/
structure Transport where
  id : Nat
  closed : Bool
  maxIncomingBitrate : Option ℚ
  deriving DecidableEq, Repr

/-- `IMediasoupClient` (mediasoup.module.ts, lines 32-41), with the
defaults installed by `RoomClient._media` (lines 125-129: the three
consumer maps start empty, the producer and transport slots unset). -/
structure IMediasoupClient where
  producerVideo : Option Producer := none
  producerScreen : Option Producer := none
  producerAudio : Option Producer := none
  producerTransport : Option Transport := none
  consumerTransport : Option Transport := none
  consumersVideo : List (String × Consumer) := []
  consumersAudio : List (String × Consumer) := []
  consumersScreen : List (String × Consumer) := []
  deriving DecidableEq, Repr

/-- `RoomClient` (mediasoup.module.ts, lines 114-298) with its field
initialisers: `joined = false`, producer-enabled flags `false`, global
flags `true`. -/
structure RoomClient where
  id : String
  device : String := ""
  kind : String := ""
  joined : Bool := false
  rtpCapabilities : Option RtpCaps := none
  producerAudioEnabled : Bool := false
  producerVideoEnabled : Bool := false
  globalProduceAudioEnabled : Bool := true
  globalProduceVideoEnabled : Bool := true
  isScreenSharing : Bool := false
  media : IMediasoupClient := {}
  deriving DecidableEq, Repr

/-- Getter `RoomClient.consumersVideo` (mediasoup.module.ts, 214-216). -/
def RoomClient.consumersVideo (c : RoomClient) : List (String × Consumer) :=
  c.media.consumersVideo

/-- Getter `RoomClient.consumersScreen` (mediasoup.module.ts, 217-219). -/
def RoomClient.consumersScreen (c : RoomClient) : List (String × Consumer) :=
  c.media.consumersScreen

/-- Getter `RoomClient.consumersAudio` (mediasoup.module.ts, 220-222).
The source returns `this._media.consumersVideo`, i.e. the *video* map,
not `_media.consumersAudio`. -/
def RoomClient.consumersAudio (c : RoomClient) : List (String × Consumer) :=
  c.media.consumersVideo

/-- The push-flow audio store `consumerPeer.media.consumersAudio.set(...)`
(room.mediasoup.ts, line 1663): writes directly to the map stored in
`media`, bypassing the accessor. -/
def storeAudioDirect (c : RoomClient) (k : String) (x : Consumer) :
    RoomClient :=
  { c with media := { c.media with
      consumersAudio := aset c.media.consumersAudio k x } }

/-- `RoomClient.getGlobalProducerCapabilitiesByKind`
(mediasoup.module.ts, 271-278). -/
def RoomClient.getGlobalProducerCapabilitiesByKind (c : RoomClient) :
    MediaKind → Bool
  | .audio => c.globalProduceAudioEnabled
  | .video => c.globalProduceVideoEnabled

/-- The room state of `MediasoupRoom` (room.mediasoup.ts): the `_clients`
map plus identification. `freshId` supplies the ids minted by the worker
for new transports, producers and consumers. -/
structure MediasoupRoom where
  sessionId : String := ""
  workerIndex : Nat := 0
  clients : List (String × RoomClient) := []
  freshId : Nat := 0
  deriving DecidableEq, Repr

/-- The error taxonomy raised by the room's handlers (each TS `throw`,
including the `TypeError` raised by dereferencing a missing client). -/
inductive RoomError
  | duplicateParticipant
  | alreadyJoined
  | participantNotFound
  | transportNotFound
  | producerNotFound
  | consumerNotFound
  | cannotConsume
  | unknownAction
  deriving DecidableEq, Repr

/-- Socket events emitted by the room (`broadcast`, `broadcastAll`,
`io.to(session).emit`, `io.emit`). -/
inductive Event
  | mediaProduce (userId : String) (kind : MediaKind)
  | mediaProducerPause (mediaTag : MediaTag) (isGlobal : Bool) (userId : String)
  | mediaProducerResume (mediaTag : MediaTag) (isGlobal : Bool) (userId : String)
  | mediaReproduce (userId : String) (kind : MediaKind)
  | mediaProducerClose (mediaTag : MediaTag) (userId : String)
  | mediaClientDisconnect (id : String)
  | mediaClientConnected (id : String)
  deriving DecidableEq, Repr

/-- The consumer map selected by a producer's `appData.mediaTag` (the
push-flow `createConsumer` stores and clears consumers here, lines
1655-1697). -/
def consumersOfTag (m : IMediasoupClient) :
    MediaTag → List (String × Consumer)
  | .screenMedia => m.consumersScreen
  | .video => m.consumersVideo
  | .audio => m.consumersAudio

def setConsumersOfTag (m : IMediasoupClient) (tag : MediaTag)
    (v : List (String × Consumer)) : IMediasoupClient :=
  match tag with
  | .screenMedia => { m with consumersScreen := v }
  | .video => { m with consumersVideo := v }
  | .audio => { m with consumersAudio := v }

/-- The producer slot selected by `appData.mediaTag` (the `switch` at
lines 685-716 and 784-806). -/
def producerOfTag (m : IMediasoupClient) : MediaTag → Option Producer
  | .screenMedia => m.producerScreen
  | .video => m.producerVideo
  | .audio => m.producerAudio

def setProducerOfTag (m : IMediasoupClient) (tag : MediaTag)
    (v : Option Producer) : IMediasoupClient :=
  match tag with
  | .screenMedia => { m with producerScreen := v }
  | .video => { m with producerVideo := v }
  | .audio => { m with producerAudio := v }

/-- A slot holds a live (not closed) producer. -/
def producerOpen : Option Producer → Bool
  | some p => !p.closed
  | none => false

/-! ## Room operations (room.mediasoup.ts)

Each `async` method wrapped in `try { ... } catch { log; return r }` is
modelled by a `...Body` function returning `Except RoomError _` (a TS
`throw` is `.error`) together with a wrapper applying the `catch`. -/

/-- The handshake query `IClientQuery` (userId, sessionId, device, kind). -/
structure ClientQuery where
  userId : String
  device : String := ""
  kind : String := ""
  deriving DecidableEq, Repr

/-- `MediasoupRoom.addClient` (room.mediasoup.ts, lines 314-331), inside
the `try`: throws `Peer already joined` (= `DuplicateParticipant`) when
`userId` is already present, else creates a fresh `RoomClient`, stores it
and returns `true`. -/
def addClientBody (room : MediasoupRoom) (query : ClientQuery) :
    Except RoomError (MediasoupRoom × Bool) :=
  if (aget room.clients query.userId).isSome then
    .error .duplicateParticipant
  else
    let rc : RoomClient :=
      { id := query.userId, device := query.device, kind := query.kind }
    .ok ({ room with clients := aset room.clients query.userId rc }, true)

/-- `addClient` with its `catch`: on a throw the method logs and falls
through, returning `undefined` (modelled as `none`) with the state as it
was. -/
def addClient (room : MediasoupRoom) (query : ClientQuery) :
    MediasoupRoom × Option Bool :=
  match addClientBody room query with
  | .ok (r, b) => (r, some b)
  | .error _ => (room, none)

/-- `MediasoupRoom.produce` (room.mediasoup.ts, lines 659-762), inside
the `try`. The worker-minted producer starts unpaused; it is stored in
the slot selected by `appData.mediaTag`, `mediaProduce` is broadcast,
and finally the producer is paused unless the tag is `screen-media`, in
which case `isScreenSharing` is set instead (lines 748-752). The
push-flow `createConsumer` fan-out to joined peers (line 738-740) awaits
a client acknowledgement and touches only the peers' consumer maps, never
this user's slots; it is modelled separately with the consumer wiring. -/
def produceBody (room : MediasoupRoom) (userId : String) (kind : MediaKind)
    (mediaTag : MediaTag) : Except RoomError (MediasoupRoom × List Event) :=
  match aget room.clients userId with
  | none => .error .participantNotFound
  | some user =>
    match user.media.producerTransport with
    | none => .error .transportNotFound
    | some _ =>
      let producer : Producer :=
        { id := room.freshId, kind := kind, mediaTag := mediaTag,
          paused := false, closed := false }
      -- `await producer.pause()` (tag ≠ screen-media) mutates the object
      -- already stored in the slot, so the slot receives the final state
      let paused := { producer with paused := true }
      let user' := match mediaTag with
        | .screenMedia =>
          { user with
            media := { user.media with producerScreen := some producer },
            isScreenSharing := true }
        | .video =>
          { user with
            media := { user.media with producerVideo := some paused } }
        | .audio =>
          { user with
            media := { user.media with producerAudio := some paused } }
      let cs := aset room.clients userId user'
      .ok ({ room with clients := cs, freshId := room.freshId + 1 },
           [Event.mediaProduce userId kind])

/-- `produce` with its `catch` (logs and returns `undefined`). -/
def produce (room : MediasoupRoom) (userId : String) (kind : MediaKind)
    (mediaTag : MediaTag) : MediasoupRoom × List Event :=
  match produceBody room userId kind mediaTag with
  | .ok r => r
  | .error _ => (room, [])

/-- Arguments of the pull-flow `consume` message. -/
structure ConsumeData where
  userId : String
  kind : MediaKind
  mediaTag : MediaTag
  rtpCapabilities : Option RtpCaps := none
  deriving DecidableEq, Repr

/-- The fields of `consume`'s success result that the room computes
itself (`rtpParameters` and `type` are echoed from the worker object). -/
structure ConsumeResult where
  producerId : Nat
  id : Nat
  kind : MediaKind
  producerPaused : Bool
  deriving DecidableEq, Repr

/-- `MediasoupRoom.consume` (room.mediasoup.ts, lines 769-987), inside
the `try`. `canCons` models `router.canConsume`. Checks in source order:
the target is dereferenced first (a missing target client throws a
`TypeError`), then the three `CannotConsume` throws (missing target
producer, line 807; missing rtp capabilities, line 812; router refusal,
line 818 — the combined re-check at line 829 is a no-op), then the
requester's consumer transport is needed (a missing requester also
surfaces here as a `TypeError`). The created consumer starts with
`paused = producer.paused`; the audio case stores it through the
`user.consumersAudio` getter, which aliases the *video* map (line 910);
a video-kind consumer is then resumed in place (line 969). -/
def consumeBody (canCons : Nat → RtpCaps → Bool) (room : MediasoupRoom)
    (userId : String) (data : ConsumeData) :
    Except RoomError (MediasoupRoom × ConsumeResult) :=
  match aget room.clients data.userId with
  | none => .error .participantNotFound
  | some target =>
    match producerOfTag target.media data.mediaTag with
    | none => .error .cannotConsume
    | some tp =>
      match data.rtpCapabilities with
      | none => .error .cannotConsume
      | some caps =>
        if !canCons tp.id caps then .error .cannotConsume
        else
          match aget room.clients userId with
          | none => .error .participantNotFound
          | some user =>
            match user.media.consumerTransport with
            | none => .error .transportNotFound
            | some _ =>
              let consumer : Consumer :=
                { id := room.freshId, producerId := tp.id, kind := tp.kind,
                  paused := tp.paused, closed := false }
              let stored := if tp.kind = MediaKind.video
                then { consumer with paused := false } else consumer
              let media' := match data.mediaTag with
                | .screenMedia =>
                  let m := aset user.media.consumersScreen data.userId stored
                  { user.media with consumersScreen := m }
                | .video =>
                  let m := aset user.media.consumersVideo data.userId stored
                  { user.media with consumersVideo := m }
                | .audio =>
                  let m := aset user.media.consumersVideo data.userId stored
                  { user.media with consumersVideo := m }
              let cs := aset room.clients userId { user with media := media' }
              .ok ({ room with clients := cs, freshId := room.freshId + 1 },
                   { producerId := tp.id, id := consumer.id,
                     kind := tp.kind, producerPaused := tp.paused })

/-- `consume` with its `catch` (logs and returns `undefined`). -/
def consume (canCons : Nat → RtpCaps → Bool) (room : MediasoupRoom)
    (userId : String) (data : ConsumeData) :
    MediasoupRoom × Option ConsumeResult :=
  match consumeBody canCons room userId data with
  | .ok (r, v) => (r, some v)
  | .error _ => (room, none)

/-- Arguments of `producerPause` / `producerResume`
(`IProducerRequest`); a TS `undefined` `isGlobal` is falsy. -/
structure ProducerRequest where
  userId : String
  kind : MediaKind
  isGlobal : Bool := false
  deriving DecidableEq, Repr

/-- `MediasoupRoom.producerPause` (room.mediasoup.ts, lines 1308-1361).
A missing target or the guard `!isGlobal && !globalFlag(kind)` returns
the request unchanged; otherwise, when the slot producer exists and is
not paused, it is paused, the matching `producer*Enabled` flag is set to
`false` and `mediaProducerPause` is emitted to the session. The method
never throws. -/
def producerPause (room : MediasoupRoom) (data : ProducerRequest) :
    MediasoupRoom × List Event :=
  match aget room.clients data.userId with
  | none => (room, [])
  | some targetClient =>
    if !data.isGlobal &&
        !(targetClient.getGlobalProducerCapabilitiesByKind data.kind) then
      (room, [])
    else
      let targetProducer := match data.kind with
        | .video => targetClient.media.producerVideo
        | .audio => targetClient.media.producerAudio
      match targetProducer with
      | none => (room, [])
      | some tp =>
        if !tp.paused then
          let tp' := { tp with paused := true }
          let tc' := match data.kind with
            | .video =>
              { targetClient with
                media := { targetClient.media with producerVideo := some tp' },
                producerVideoEnabled := false }
            | .audio =>
              { targetClient with
                media := { targetClient.media with producerAudio := some tp' },
                producerAudioEnabled := false }
          ({ room with clients := aset room.clients data.userId tc' },
           [Event.mediaProducerPause tp.mediaTag data.isGlobal data.userId])
        else (room, [])

/-- `MediasoupRoom.producerResume` (room.mediasoup.ts, lines 1369-1427).
The guard `!isGlobal && !globalFlag(kind)` returns `false`. When the slot
producer is paused and not closed the source sets the matching
`producer*Enabled` flag to `false` (lines 1398-1404) — not `true` —
then resumes the producer and emits `mediaProducerResume`; a closed
producer instead triggers `mediaReproduce` to the owner. Returns the
boolean the source returns. -/
def producerResume (room : MediasoupRoom) (data : ProducerRequest) :
    MediasoupRoom × List Event × Bool :=
  match aget room.clients data.userId with
  | none => (room, [], true)
  | some targetClient =>
    let targetProducer := match data.kind with
      | .video => targetClient.media.producerVideo
      | .audio => targetClient.media.producerAudio
    if !data.isGlobal &&
        !(targetClient.getGlobalProducerCapabilitiesByKind data.kind) then
      (room, [], false)
    else
      match targetProducer with
      | none => (room, [], true)
      | some tp =>
        if tp.paused && !tp.closed then
          let tp' := { tp with paused := false }
          let tc' := match data.kind with
            | .video =>
              { targetClient with
                media := { targetClient.media with producerVideo := some tp' },
                producerVideoEnabled := false }
            | .audio =>
              { targetClient with
                media := { targetClient.media with producerAudio := some tp' },
                producerAudioEnabled := false }
          ({ room with clients := aset room.clients data.userId tc' },
           [Event.mediaProducerResume tp.mediaTag data.isGlobal data.userId],
           true)
        else if tp.closed then
          (room, [Event.mediaReproduce data.userId data.kind], true)
        else (room, [], true)

/-! ## Tear-down and close cascades (room.mediasoup.ts)

`removeClient` (lines 389-409) calls `closeMediaClient` (lines 277-306),
which closes `producerVideo`, `producerAudio`, `producerTransport` and
`consumerTransport`, in that order, each only when present and not yet
closed. The worker cascades each close: closing a transport closes every
producer/consumer created on it, and closing a producer fires
`producerclose` on every dependent consumer, whose handler (wired in
`createConsumer`, lines 1667-1697) closes it and removes it from its
owner's map for the producer's tag. The `CloseEv` trace records, in
order, the close calls that reach this participant's own media objects. -/

inductive TransportSide
  | producerT
  | consumerT
  deriving DecidableEq, Repr

inductive CloseEv
  | producer (owner : String) (tag : MediaTag)
  | consumer (owner : String) (peerKey : String) (tag : MediaTag)
  | transport (owner : String) (side : TransportSide)
  deriving DecidableEq, Repr

/-- Apply `f` to the client stored under `key` (in-place `Map` update). -/
def updClient (clients : List (String × RoomClient)) (key : String)
    (f : RoomClient → RoomClient) : List (String × RoomClient) :=
  clients.map (fun kc => (kc.1, if kc.1 == key then f kc.2 else kc.2))

/-- `producerclose` handler effect on one client: drop the consumer keyed
by the producing peer from the map of the producer's tag. -/
def dropConsumerOf (c : RoomClient) (peerId : String) (tag : MediaTag) :
    RoomClient :=
  { c with media :=
      setConsumersOfTag c.media tag (adel (consumersOfTag c.media tag) peerId) }

/-- The per-entry effect of closing `ownerId`'s producer for `tag`: the
owner's slot producer is marked closed, and every client (owner included)
drops its dependent consumer keyed by `ownerId`. -/
def cascadeUpd (ownerId : String) (tag : MediaTag) (key : String)
    (c : RoomClient) : RoomClient :=
  let closedSlot :=
    (producerOfTag c.media tag).map (fun p => { p with closed := true })
  let c1 := if key == ownerId then
      { c with media := setProducerOfTag c.media tag closedSlot }
    else c
  dropConsumerOf c1 ownerId tag

/-- `producer.close()` on `ownerId`'s producer for `tag`: the slot
producer is marked closed and every dependent consumer (in any client's
map for that tag, keyed by `ownerId`) is closed and removed by its
`producerclose` handler. -/
def closeProducerCascade (clients : List (String × RoomClient))
    (ownerId : String) (tag : MediaTag) : List (String × RoomClient) :=
  clients.map (fun kc => (kc.1, cascadeUpd ownerId tag kc.1 kc.2))

/-- One producer slot examined by a close sequence: if the owner still
holds an open producer for `tag`, it is closed (with its `producerclose`
cascade) and the close is recorded. -/
def cascadeStep (ownerId : String)
    (acc : List (String × RoomClient) × List CloseEv) (tag : MediaTag) :
    List (String × RoomClient) × List CloseEv :=
  match aget acc.1 ownerId with
  | none => acc
  | some u =>
    if producerOpen (producerOfTag u.media tag) then
      (closeProducerCascade acc.1 ownerId tag,
       acc.2 ++ [CloseEv.producer ownerId tag])
    else acc

/-- `closeMediaClient` step 1/2 (lines 279-284): close the video (resp.
audio) producer if present and not yet closed. -/
def closeProducerStep (clients : List (String × RoomClient))
    (ownerId : String) (tag : MediaTag) :
    List (String × RoomClient) × List CloseEv :=
  cascadeStep ownerId (clients, []) tag

/-- Producers still open when their transport closes, in a fixed
cascade order. -/
def cascadeOpenProducers (clients : List (String × RoomClient))
    (ownerId : String) (tags : List MediaTag) :
    List (String × RoomClient) × List CloseEv :=
  tags.foldl (cascadeStep ownerId) (clients, [])

/-- Mark the producer transport closed on a client record. -/
def markPTClosed (t : Transport) (c : RoomClient) : RoomClient :=
  { c with media := { c.media with
      producerTransport := some { t with closed := true } } }

/-- `closeMediaClient` step 3 (lines 285-290): close the producer
transport if present and open; the worker then closes every producer
still open on it (in the model: any still-open slot producer, in
video/audio/screen order), cascading to dependent consumers. -/
def closeProducerTransportStep (clients : List (String × RoomClient))
    (ownerId : String) : List (String × RoomClient) × List CloseEv :=
  match aget clients ownerId with
  | none => (clients, [])
  | some u =>
    match u.media.producerTransport with
    | none => (clients, [])
    | some t =>
      if t.closed then (clients, [])
      else
        let clients1 := updClient clients ownerId (markPTClosed t)
        let s := cascadeOpenProducers clients1 ownerId
          [MediaTag.video, MediaTag.audio, MediaTag.screenMedia]
        (s.1, CloseEv.transport ownerId TransportSide.producerT :: s.2)

/-- Mark the consumer transport closed on a client record and empty its
consumer maps (the `transportclose` handlers of all its consumers). -/
def markCTClosed (t : Transport) (c : RoomClient) : RoomClient :=
  { c with media := { c.media with
      consumerTransport := some { t with closed := true },
      consumersScreen := [],
      consumersVideo := [],
      consumersAudio := [] } }

/-- `closeMediaClient` step 4 (lines 291-296): close the consumer
transport if present and open; `transportclose` then fires on every
consumer created on it, and each closes and removes itself from its
owner's map. -/
def closeConsumerTransportStep (clients : List (String × RoomClient))
    (ownerId : String) : List (String × RoomClient) × List CloseEv :=
  match aget clients ownerId with
  | none => (clients, [])
  | some u =>
    match u.media.consumerTransport with
    | none => (clients, [])
    | some t =>
      if t.closed then (clients, [])
      else
        let evs :=
          (u.media.consumersScreen.map
            (fun p => CloseEv.consumer ownerId p.1 MediaTag.screenMedia)) ++
          (u.media.consumersVideo.map
            (fun p => CloseEv.consumer ownerId p.1 MediaTag.video)) ++
          (u.media.consumersAudio.map
            (fun p => CloseEv.consumer ownerId p.1 MediaTag.audio))
        let clients1 := updClient clients ownerId (markCTClosed t)
        (clients1, CloseEv.transport ownerId TransportSide.consumerT :: evs)

/-- `MediasoupRoom.closeMediaClient` (room.mediasoup.ts, lines 277-306)
together with the worker-side cascades its close calls trigger. -/
def closeMediaClient (clients : List (String × RoomClient))
    (ownerId : String) : List (String × RoomClient) × List CloseEv :=
  let s1 := closeProducerStep clients ownerId MediaTag.video
  let s2 := closeProducerStep s1.1 ownerId MediaTag.audio
  let s3 := closeProducerTransportStep s2.1 ownerId
  let s4 := closeConsumerTransportStep s3.1 ownerId
  (s4.1, s1.2 ++ s2.2 ++ s3.2 ++ s4.2)

/-- `MediasoupRoom.removeClient` (room.mediasoup.ts, lines 389-409):
broadcast `mediaClientDisconnect`, leave the session, tear down the
participant's media via `closeMediaClient`, delete the map entry;
a missing participant is a no-op returning `true`. -/
def removeClient (room : MediasoupRoom) (userId : String) :
    MediasoupRoom × List CloseEv × List Event :=
  match aget room.clients userId with
  | none => (room, [], [])
  | some _ =>
    let s := closeMediaClient room.clients userId
    ({ room with clients := adel s.1 userId }, s.2,
     [Event.mediaClientDisconnect userId])

/-- Arguments of `producerClose`. -/
structure ProducerCloseData where
  userId : String
  kind : MediaKind
  isScreenMedia : Bool := false
  deriving DecidableEq, Repr

/-- The consumer map reached through the `RoomClient` accessor for a
`producerClose` request (lines 1267-1278): screen and video use their own
maps, but the `consumersAudio` accessor aliases the *video* map. -/
def accessorConsumers (c : RoomClient) (kind : MediaKind)
    (isScreenMedia : Bool) : List (String × Consumer) :=
  match kind, isScreenMedia with
  | .video, true => c.consumersScreen
  | .video, false => c.consumersVideo
  | .audio, _ => c.consumersAudio

def setAccessorConsumers (c : RoomClient) (kind : MediaKind)
    (isScreenMedia : Bool) (v : List (String × Consumer)) : RoomClient :=
  match kind, isScreenMedia with
  | .video, true => { c with media := { c.media with consumersScreen := v } }
  | .video, false => { c with media := { c.media with consumersVideo := v } }
  | .audio, _ => { c with media := { c.media with consumersVideo := v } }

/-- `consumer.close()` performed in place on a map entry (the entry is
not removed; only the handle is closed). -/
def closeConsumerEntry (m : List (String × Consumer)) (k : String) :
    List (String × Consumer) :=
  m.map (fun p => if p.1 == k then (p.1, { p.2 with closed := true }) else p)

/-- `MediasoupRoom.producerClose` (room.mediasoup.ts, lines 1244-1301):
resolve the slot from `kind`/`isScreenMedia`; close, in place, the
matching consumer of every *other* client (found through the accessor of
the requested kind, lines 1265-1279); then, if the slot producer is live,
clear `isScreenSharing` when the request is for the screen, close the
producer (cascading `producerclose` to dependent consumers) and emit
`mediaProducerClose`. Always returns `true`. -/
def producerClose (room : MediasoupRoom) (data : ProducerCloseData) :
    MediasoupRoom × List Event × Bool :=
  match aget room.clients data.userId with
  | none => (room, [], true)
  | some targetClient =>
    let tag : MediaTag := match data.kind, data.isScreenMedia with
      | .video, true => .screenMedia
      | .video, false => .video
      | .audio, _ => .audio
    let clients1 := room.clients.map (fun kc =>
      if kc.1 == data.userId then kc
      else
        let m := accessorConsumers kc.2 data.kind data.isScreenMedia
        (kc.1, setAccessorConsumers kc.2 data.kind data.isScreenMedia
          (closeConsumerEntry m data.userId)))
    let targetProducer := producerOfTag targetClient.media tag
    if producerOpen targetProducer then
      let clients2 :=
        if data.isScreenMedia then
          updClient clients1 data.userId
            (fun c => { c with isScreenSharing := false })
        else clients1
      let clients3 := closeProducerCascade clients2 data.userId tag
      ({ room with clients := clients3 },
       [Event.mediaProducerClose tag data.userId], true)
    else ({ room with clients := clients1 }, [], true)

/-- `MediasoupRoom.allProducerClose` (lines 1435-1467): close every
client's live producer of the requested kind (worker cascades apply). -/
def allProducerClose (room : MediasoupRoom) (kind : MediaKind) :
    MediasoupRoom × Bool :=
  let tag : MediaTag := match kind with
    | .video => .video
    | .audio => .audio
  let owners := (room.clients.filter
    (fun kc => producerOpen (producerOfTag kc.2.media tag))).map (fun kc => kc.1)
  (({ room with
      clients := owners.foldl (fun cl o => closeProducerCascade cl o tag)
        room.clients }), true)

/-- `MediasoupRoom.allProducerPause` (lines 1475-1507): pause every
client's unpaused producer of the requested kind; enable flags are left
untouched and nothing is emitted. -/
def allProducerPause (room : MediasoupRoom) (kind : MediaKind) :
    MediasoupRoom × Bool :=
  let tag : MediaTag := match kind with
    | .video => .video
    | .audio => .audio
  (({ room with
      clients := room.clients.map (fun kc =>
        match producerOfTag kc.2.media tag with
        | some p =>
          if !p.paused then
            (kc.1, { kc.2 with
              media := setProducerOfTag kc.2.media tag
                (some { p with paused := true }) })
          else kc
        | none => kc) }), true)

/-- `MediasoupRoom.allProducerResume` (lines 1515-1553): resume every
paused live producer of the requested kind; for a closed producer emit
`mediaReproduce` to its owner. -/
def allProducerResume (room : MediasoupRoom) (kind : MediaKind) :
    MediasoupRoom × List Event × Bool :=
  let tag : MediaTag := match kind with
    | .video => .video
    | .audio => .audio
  let clients' := room.clients.map (fun kc =>
    match producerOfTag kc.2.media tag with
    | some p =>
      if p.paused && !p.closed then
        (kc.1, { kc.2 with
          media := setProducerOfTag kc.2.media tag
            (some { p with paused := false }) })
      else kc
    | none => kc)
  let evs := (room.clients.filter (fun kc =>
      match producerOfTag kc.2.media tag with
      | some p => p.closed
      | none => false)).map (fun kc => Event.mediaReproduce kc.1 kind)
  ({ room with clients := clients' }, evs, true)

/-! ## Bitrate governance (room.mediasoup.ts, lines 1559-1609) -/

/-- JS `Math.round`: round half toward positive infinity. -/
def jsRound (x : ℚ) : ℤ := Int.floor (x + 1 / 2)

/-- The getter `producerIds` (lines 114-128): ids of clients holding a
video or an audio producer slot (presence, not liveness, is tested). -/
def producerIds (room : MediasoupRoom) : List String :=
  (room.clients.filter (fun kc =>
    kc.2.media.producerVideo.isSome || kc.2.media.producerAudio.isSome)).map
    (fun kc => kc.2.id)

/-- The bitrate computed by `updateMaxIncomingBitrate` (lines 1567-1578):
`Math.round(max / ((count - 1) * factor))`, clamped below by `min`, then
overridden to `max` when `count < 3`. In JS, `count = 1` divides by zero
giving `Infinity`; in ℚ the division yields `0`; both are masked by the
`count < 3` override, so the returned value agrees for every count. -/
def newMaxIncomingBitrate (minB maxB factor : ℚ) (count : Nat) : ℚ :=
  let raw : ℚ := (jsRound (maxB / (((count : ℚ) - 1) * factor)) : ℤ)
  let v := if raw < minB then minB else raw
  if count < 3 then maxB else v

def setTransportBitrate (t : Option Transport) (v : ℚ) : Option Transport :=
  match t with
  | some t => if !t.closed then some { t with maxIncomingBitrate := some v }
              else some t
  | none => none

/-- `MediasoupRoom.updateMaxIncomingBitrate` (lines 1559-1609): compute
the new bitrate from the producer count and apply it to every client's
open producer and consumer transport. -/
def updateMaxIncomingBitrate (minB maxB factor : ℚ) (room : MediasoupRoom) :
    MediasoupRoom :=
  let v := newMaxIncomingBitrate minB maxB factor (producerIds room).length
  { room with clients := room.clients.map (fun kc =>
      (kc.1, { kc.2 with media := { kc.2.media with
        producerTransport := setTransportBitrate kc.2.media.producerTransport v,
        consumerTransport :=
          setTransportBitrate kc.2.media.consumerTransport v } })) }

/-- The bitrate formula exactly as the specification words it for claim
C7: `floor` of the quotient instead of JS `Math.round`. This definition
follows the spec text and exists only to be compared with
`newMaxIncomingBitrate`, which follows the source. -/
def claimedMaxIncomingBitrate (minB maxB factor : ℚ) (count : Nat) : ℚ :=
  let raw : ℚ := (Int.floor (maxB / (((count : ℚ) - 1) * factor)) : ℤ)
  let v := if raw < minB then minB else raw
  if count < 3 then maxB else v

/-! ## Command dispatcher (room.mediasoup.ts, lines 417-536)

`speakMsClient` switches on the runtime string `msg.action` (TS types
are erased), wraps the whole switch in `try`/`catch`, throws
`Couldn't find Mediasoup Event ...` (= `UnknownAction`) past the last
case, and the `catch` converts any escaped error into the returned value
`false`. Each handler additionally wraps its own body in `try`/`catch`,
returning `undefined` — or for the two transport handlers an
`{ error }` envelope — instead of rethrowing. `msg.data` is modelled as
an already-typed record whose fields irrelevant to an action are
ignored, mirroring the unchecked `as` casts. -/

/-- The getter `audioProducerIds` (lines 92-102). -/
def audioProducerIds (room : MediasoupRoom) : List String :=
  (room.clients.filter (fun kc =>
    match kc.2.media.producerAudio with
    | some p => !p.closed
    | none => false)).map (fun kc => kc.2.id)

/-- The getter `videoProducerIds` (lines 103-113). -/
def videoProducerIds (room : MediasoupRoom) : List String :=
  (room.clients.filter (fun kc =>
    match kc.2.media.producerVideo with
    | some p => !p.closed
    | none => false)).map (fun kc => kc.2.id)

/-- The value a dispatcher call returns to the gateway. -/
inductive DispatchValue
  | undef
  | boolean (b : Bool)
  | emptyObj
  | routerCaps
  | transportParams (id : Nat)
  | connected
  | iceParams
  | statsVal
  | idList (ids : List String)
  | consumeOk (r : ConsumeResult)
  | errorEnvelope (e : RoomError)
  | echo (userId : String)
  deriving DecidableEq, Repr

/-- A `msg.data` payload (union of the shapes the handlers cast to). -/
structure MsgData where
  transportType : String := ""
  userId : String := ""
  kind : MediaKind := .audio
  mediaTag : MediaTag := .audio
  isGlobal : Bool := false
  isScreenMedia : Bool := false
  rtpCapabilities : Option RtpCaps := none
  deriving DecidableEq, Repr

/-- `MediasoupRoom.createWebRtcTransport` (lines 544-606): the worker
mints the transport before the client record is dereferenced, so a
missing client surfaces as a caught `TypeError` returning an `{ error }`
envelope; an unrecognized `type` attaches the transport to neither slot
and still returns its parameters. -/
def createWebRtcTransport (room : MediasoupRoom) (userId : String)
    (ttype : String) : MediasoupRoom × DispatchValue :=
  let tid := room.freshId
  let t : Transport := { id := tid, closed := false, maxIncomingBitrate := none }
  let room1 := { room with freshId := tid + 1 }
  if ttype = "PRODUCER" then
    match aget room1.clients userId with
    | none => (room1, .errorEnvelope .participantNotFound)
    | some _ =>
      (({ room1 with clients := updClient room1.clients userId (fun c =>
          { c with media := { c.media with producerTransport := some t } }) }),
       .transportParams tid)
  else if ttype = "CONSUMER" then
    match aget room1.clients userId with
    | none => (room1, .errorEnvelope .participantNotFound)
    | some _ =>
      (({ room1 with clients := updClient room1.clients userId (fun c =>
          { c with media := { c.media with consumerTransport := some t } }) }),
       .transportParams tid)
  else (room1, .transportParams tid)

/-- `MediasoupRoom.connectWebRtcTransport` (lines 614-651): a missing
client or transport yields the `{ error }` envelope of the caught throw;
otherwise the DTLS connect succeeds worker-side and `{ connected: true }`
is returned. -/
def connectWebRtcTransport (room : MediasoupRoom) (userId : String)
    (ttype : String) : DispatchValue :=
  match aget room.clients userId with
  | none => .errorEnvelope .participantNotFound
  | some u =>
    let tr := if ttype = "PRODUCER" then u.media.producerTransport
      else if ttype = "CONSUMER" then u.media.consumerTransport
      else none
    match tr with
    | none => .errorEnvelope .transportNotFound
    | some _ => .connected

/-- A read-only handler pattern shared by `restartIce` (996-1032) and
`getTransportStats` (1071-1109): resolve the user's transport by type;
any failure is caught, returning `undefined`. -/
def transportLookup (room : MediasoupRoom) (userId : String)
    (ttype : String) : Option Transport :=
  match aget room.clients userId with
  | none => none
  | some u =>
    if ttype = "PRODUCER" then u.media.producerTransport
    else if ttype = "CONSUMER" then u.media.consumerTransport
    else none

/-- `MediasoupRoom.getProducerStats` (1118-1154): resolve the *target*
client's producer by kind; failures are caught, returning `undefined`. -/
def producerStatsLookup (room : MediasoupRoom) (targetId : String)
    (kind : MediaKind) : Option Producer :=
  match aget room.clients targetId with
  | none => none
  | some c =>
    match kind with
    | .video => c.media.producerVideo
    | .audio => c.media.producerAudio

/-- `MediasoupRoom.getConsumerStats` (1163-1202): resolve the requesting
client's consumer of `data.userId` by kind (here the source reads
`media.consumersVideo` / `media.consumersAudio` directly, not the
accessors). -/
def consumerStatsLookup (room : MediasoupRoom) (userId targetId : String)
    (kind : MediaKind) : Option Consumer :=
  match aget room.clients userId with
  | none => none
  | some u =>
    match kind with
    | .video => aget u.media.consumersVideo targetId
    | .audio => aget u.media.consumersAudio targetId

/-- `MediasoupRoom.requestConsumerKeyFrame` (1039-1064): the requesting
client's video consumer of `data.userId`; missing → caught, `undefined`. -/
def keyFrameLookup (room : MediasoupRoom) (userId targetId : String) :
    Option Consumer :=
  match aget room.clients userId with
  | none => none
  | some u => aget u.media.consumersVideo targetId

/-- The switch body of `speakMsClient` (lines 422-531), before the
enclosing `catch`: each known action dispatches to its (self-catching)
handler; falling past the switch throws `UnknownAction`. -/
def speakMsClientBody (canCons : Nat → RtpCaps → Bool) (room : MediasoupRoom)
    (userId : String) (action : String) (data : MsgData) :
    Except RoomError (MediasoupRoom × List Event × DispatchValue) :=
  if action = "getRouterRtpCapabilities" then
    .ok (room, [], .routerCaps)
  else if action = "createWebRtcTransport" then
    let r := createWebRtcTransport room userId data.transportType
    .ok (r.1, [], r.2)
  else if action = "connectWebRtcTransport" then
    .ok (room, [], connectWebRtcTransport room userId data.transportType)
  else if action = "produce" then
    match produceBody room userId data.kind data.mediaTag with
    | .ok (r, evs) => .ok (r, evs, .emptyObj)
    | .error _ => .ok (room, [], .undef)
  else if action = "consume" then
    match consumeBody canCons room userId
        { userId := data.userId, kind := data.kind, mediaTag := data.mediaTag,
          rtpCapabilities := data.rtpCapabilities } with
    | .ok (r, v) => .ok (r, [], .consumeOk v)
    | .error _ => .ok (room, [], .undef)
  else if action = "restartIce" then
    match transportLookup room userId data.transportType with
    | some _ => .ok (room, [], .iceParams)
    | none => .ok (room, [], .undef)
  else if action = "requestConsumerKeyFrame" then
    match keyFrameLookup room userId data.userId with
    | some _ => .ok (room, [], .boolean true)
    | none => .ok (room, [], .undef)
  else if action = "getTransportStats" then
    match transportLookup room userId data.transportType with
    | some _ => .ok (room, [], .statsVal)
    | none => .ok (room, [], .undef)
  else if action = "getProducerStats" then
    match producerStatsLookup room data.userId data.kind with
    | some _ => .ok (room, [], .statsVal)
    | none => .ok (room, [], .undef)
  else if action = "getConsumerStats" then
    match consumerStatsLookup room userId data.userId data.kind with
    | some _ => .ok (room, [], .statsVal)
    | none => .ok (room, [], .undef)
  else if action = "getAudioProducerIds" then
    .ok (room, [], .idList (audioProducerIds room))
  else if action = "getVideoProducerIds" then
    .ok (room, [], .idList (videoProducerIds room))
  else if action = "producerClose" then
    let r := producerClose room
      { userId := data.userId, kind := data.kind,
        isScreenMedia := data.isScreenMedia }
    .ok (r.1, r.2.1, .boolean r.2.2)
  else if action = "producerPause" then
    let r := producerPause room
      { userId := data.userId, kind := data.kind, isGlobal := data.isGlobal }
    .ok (r.1, r.2, .echo data.userId)
  else if action = "producerResume" then
    let r := producerResume room
      { userId := data.userId, kind := data.kind, isGlobal := data.isGlobal }
    .ok (r.1, r.2.1, .boolean r.2.2)
  else if action = "allProducerClose" then
    let r := allProducerClose room data.kind
    .ok (r.1, [], .boolean r.2)
  else if action = "allProducerPause" then
    let r := allProducerPause room data.kind
    .ok (r.1, [], .boolean r.2)
  else if action = "allProducerResume" then
    let r := allProducerResume room data.kind
    .ok (r.1, r.2.1, .boolean r.2.2)
  else .error .unknownAction

/-- `MediasoupRoom.speakMsClient` with its surrounding `catch` (lines
532-535): any error escaping the switch is logged and the call returns
`false` — nothing propagates to the gateway. -/
def speakMsClient (canCons : Nat → RtpCaps → Bool) (room : MediasoupRoom)
    (userId : String) (action : String) (data : MsgData) :
    MediasoupRoom × List Event × DispatchValue :=
  match speakMsClientBody canCons room userId action data with
  | .ok v => v
  | .error _ => (room, [], .boolean false)

/-- The closed action set of the dispatcher (`IMsMessage.action`). -/
def knownActions : List String :=
  ["getRouterRtpCapabilities", "createWebRtcTransport",
   "connectWebRtcTransport", "produce", "consume", "restartIce",
   "requestConsumerKeyFrame", "getTransportStats", "getProducerStats",
   "getConsumerStats", "getAudioProducerIds", "getVideoProducerIds",
   "producerClose", "producerPause", "producerResume", "allProducerClose",
   "allProducerPause", "allProducerResume"]

/-! ## Concrete fixtures used by witnesses and counterexamples -/

def openTransport (n : Nat) : Transport :=
  { id := n, closed := false, maxIncomingBitrate := none }

def audioProducerAt (n : Nat) : Producer :=
  { id := n, kind := .audio, mediaTag := .audio, paused := false, closed := false }

def videoProducerAt (n : Nat) : Producer :=
  { id := n, kind := .video, mediaTag := .video, paused := false, closed := false }

/-- A bare participant record, as `addClient` creates it. -/
def bareClient (uid : String) : RoomClient := { id := uid }

/-- One-entry room holding `bareClient "a"`. -/
def dupRoom : MediasoupRoom := { clients := [("a", bareClient "a")] }

/-- A participant whose global audio flag is off (scenario S3). -/
def globalOffClient : RoomClient :=
  { id := "a", globalProduceAudioEnabled := false }

def globalOffRoom : MediasoupRoom := { clients := [("a", globalOffClient)] }

/-- A joined participant with a live unpaused audio producer and both
global flags on. -/
def liveAudioClient : RoomClient :=
  { id := "a", joined := true, producerAudioEnabled := true,
    media := { producerAudio := some (audioProducerAt 0) } }

def liveAudioRoom : MediasoupRoom := { clients := [("a", liveAudioClient)] }

/-- A producer-side participant (open producer transport, no producers). -/
def producingClient : RoomClient :=
  { id := "a", joined := true,
    media := { producerTransport := some (openTransport 100) } }

/-- A consumer-side peer with an open consumer transport and stored rtp
capabilities. -/
def consumingClient : RoomClient :=
  { id := "b", joined := true, rtpCapabilities := some [1],
    media := { consumerTransport := some (openTransport 101) } }

def produceRoom : MediasoupRoom :=
  { clients := [("a", producingClient), ("b", consumingClient)], freshId := 0 }

/-- Tear-down fixture: "a" holds a live video producer, both transports,
and consumes "b"; "b" holds a live video producer and consumes "a". -/
def teardownClientA : RoomClient :=
  { id := "a", joined := true,
    media := { producerVideo := some (videoProducerAt 0),
               producerTransport := some (openTransport 1),
               consumerTransport := some (openTransport 2),
               consumersVideo := [("b",
                 { id := 3, producerId := 10, kind := .video,
                   paused := false, closed := false })] } }

def teardownClientB : RoomClient :=
  { id := "b", joined := true,
    media := { producerVideo := some (videoProducerAt 10),
               consumerTransport := some (openTransport 4),
               consumersVideo := [("a",
                 { id := 5, producerId := 0, kind := .video,
                   paused := false, closed := false })] } }

def teardownRoom : MediasoupRoom :=
  { clients := [("a", teardownClientA), ("b", teardownClientB)] }

/-- Three audio-producing participants; "a" also has an open consumer
transport, so the recomputed bitrate is observable on it. -/
def bitrateClientA : RoomClient :=
  { id := "a",
    media := { producerAudio := some (audioProducerAt 0),
               consumerTransport := some (openTransport 7) } }

def bitrateClient (uid : String) (pid : Nat) : RoomClient :=
  { id := uid, media := { producerAudio := some (audioProducerAt pid) } }

def bitrateRoom : MediasoupRoom :=
  { clients := [("a", bitrateClientA), ("b", bitrateClient "b" 1),
                ("c", bitrateClient "c" 2)] }

/-! ## Spec-side order predicate for the tear-down claim -/

/-- Rank of a close event in the order claim C6 states: producers first,
then consumers, then transports. -/
def closeRank : CloseEv → Nat
  | .producer _ _ => 0
  | .consumer _ _ _ => 1
  | .transport _ _ => 2

/-- The event concerns one of `u`'s own media objects. -/
def ownEvent (u : String) : CloseEv → Bool
  | .producer o _ => o == u
  | .consumer o _ _ => o == u
  | .transport o _ => o == u

def ranksNonDecreasing : List Nat → Bool
  | [] => true
  | [_] => true
  | a :: b :: r => Nat.ble a b && ranksNonDecreasing (b :: r)

/-- The tear-down order exactly as claim C6 words it (written from the
spec, to be compared with the trace the source produces): among the
removed participant's own close events, every producer close precedes
every consumer close, which precedes every transport close. -/
def claimedTeardownOrder (u : String) (tr : List CloseEv) : Bool :=
  ranksNonDecreasing ((tr.filter (ownEvent u)).map closeRank)

/-- No remaining client's consumer map for `tag` references peer `u`. -/
def NoRef (cl : List (String × RoomClient)) (u : String) (tag : MediaTag) :
    Prop :=
  ∀ k c, (k, c) ∈ cl → k ≠ u → aget (consumersOfTag c.media tag) u = none

theorem pickWorker_step (e c : Nat × Nat) (es : List (Nat × Nat)) :
    pickWorker e (c :: es) = pickWorker (if e.2 < c.2 then e else c) es := by
  simp [pickWorker]

theorem pickWorker_mem : ∀ (es : List (Nat × Nat)) (e : Nat × Nat),
    pickWorker e es ∈ e :: es := by
  intro es
  induction es with
  | nil => intro e; simp [pickWorker]
  | cons c es ih =>
    intro e
    rw [pickWorker_step]
    by_cases hc : e.2 < c.2
    · rw [if_pos hc]
      rcases List.mem_cons.1 (ih e) with h | h
      · simp [h]
      · simp [h]
    · rw [if_neg hc]
      rcases List.mem_cons.1 (ih c) with h | h
      · simp [h]
      · simp [h]

theorem pickWorker_le : ∀ (es : List (Nat × Nat)) (e : Nat × Nat),
    ∀ x ∈ e :: es, (pickWorker e es).2 ≤ x.2 := by
  intro es
  induction es with
  | nil => intro e x hx; simp at hx; simp [pickWorker, hx]
  | cons c es ih =>
    intro e x hx
    rw [pickWorker_step]
    simp only [List.mem_cons] at hx
    by_cases hc : e.2 < c.2
    · rw [if_pos hc]
      rcases hx with hx | hx | hx
      · rw [hx]; exact ih e _ (List.mem_cons_self _ _)
      · rw [hx]
        have := ih e _ (List.mem_cons_self _ _)
        omega
      · exact ih e x (List.mem_cons_of_mem _ hx)
    · rw [if_neg hc]
      rcases hx with hx | hx | hx
      · rw [hx]
        have := ih c _ (List.mem_cons_self _ _)
        omega
      · rw [hx]; exact ih c _ (List.mem_cons_self _ _)
      · exact ih c x (List.mem_cons_of_mem _ hx)

/-- On a tie for the minimal count the fold keeps the *later* entry, hence
(keys being strictly increasing) the larger index. -/
theorem pickWorker_tie : ∀ (es : List (Nat × Nat)) (e : Nat × Nat),
    (e :: es).Pairwise (fun a b => a.1 < b.1) →
    ∀ x ∈ e :: es, x.2 = (pickWorker e es).2 → x.1 ≤ (pickWorker e es).1 := by
  intro es
  induction es with
  | nil =>
    intro e _ x hx _; simp at hx; simp [pickWorker, hx]
  | cons c es ih =>
    intro e hinc x hx htie
    rw [pickWorker_step] at htie ⊢
    simp only [List.mem_cons] at hx
    by_cases hc : e.2 < c.2
    · rw [if_pos hc] at htie ⊢
      have hinc' : (e :: es).Pairwise (fun a b => a.1 < b.1) :=
        List.pairwise_cons.2 ⟨fun y hy =>
          (List.pairwise_cons.1 hinc).1 y (List.mem_cons_of_mem _ hy),
          (List.pairwise_cons.1 ((List.pairwise_cons.1 hinc).2)).2⟩
      rcases hx with hx | hx | hx
      · rw [hx] at htie ⊢
        exact ih e hinc' _ (List.mem_cons_self _ _) htie
      · -- c was dropped; its count is strictly above the kept minimum
        rw [hx] at htie ⊢
        have hle := pickWorker_le es e _ (List.mem_cons_self _ _)
        omega
      · exact ih e hinc' x (List.mem_cons_of_mem _ hx) htie
    · rw [if_neg hc] at htie ⊢
      have hinc' : (c :: es).Pairwise (fun a b => a.1 < b.1) :=
        (List.pairwise_cons.1 hinc).2
      rcases hx with hx | hx | hx
      · -- e was dropped in favour of c; the result sits in c :: es, all of
        -- whose indices are above e.1
        rw [hx]
        have hmem := pickWorker_mem es c
        have hgt : ∀ y ∈ c :: es, e.1 < y.1 := (List.pairwise_cons.1 hinc).1
        exact le_of_lt (hgt _ hmem)
      · rw [hx] at htie ⊢
        exact ih c hinc' _ (List.mem_cons_self _ _) htie
      · exact ih c hinc' x (List.mem_cons_of_mem _ hx) htie

theorem getOptimalWorkerIndex_spec (ws : List (Nat × Nat)) (hne : ws ≠ [])
    (hinc : ws.Pairwise (fun a b => a.1 < b.1)) :
    ∃ s ∈ ws, getOptimalWorkerIndex ws = s.1 ∧
      (∀ x ∈ ws, s.2 ≤ x.2) ∧ (∀ x ∈ ws, x.2 = s.2 → x.1 ≤ s.1) := by
  match ws with
  | [] => exact absurd rfl hne
  | e :: es =>
    exact ⟨pickWorker e es, pickWorker_mem es e, rfl,
      pickWorker_le es e, pickWorker_tie es e hinc⟩

theorem updateWorkerStats_pairwise (n : Nat) (rooms : List (Nat × Nat)) :
    (updateWorkerStats n rooms).Pairwise (fun a b => a.1 < b.1) := by
  unfold updateWorkerStats
  rw [List.pairwise_map]
  simpa using List.pairwise_lt_range n

theorem updateWorkerStats_ne_nil (n : Nat) (hpos : 0 < n)
    (rooms : List (Nat × Nat)) : updateWorkerStats n rooms ≠ [] := by
  unfold updateWorkerStats
  intro h
  have := congrArg List.length h
  simp at this
  omega

/-! ## Association-list lemmas -/

theorem aget_nil {α : Type} (k : String) : aget ([] : List (String × α)) k = none := rfl

theorem aget_aset_self {α : Type} (m : List (String × α)) (k : String) (v : α) :
    aget (aset m k v) k = some v := by
  simp [aget, aset, List.find?]

theorem find?_filter_ne {α : Type} (m : List (String × α)) (k k' : String)
    (h : k' ≠ k) :
    (m.filter (fun p => p.1 != k)).find? (fun p => p.1 == k') =
      m.find? (fun p => p.1 == k') := by
  induction m with
  | nil => rfl
  | cons p m ih =>
    by_cases hp : p.1 = k'
    · have hne : (p.1 != k) = true := by
        simp [bne, hp]
        exact h
      have hfind : (p.1 == k') = true := by simp [hp]
      simp [List.filter_cons, hne, List.find?, hfind]
    · have hfind : (p.1 == k') = false := by simp [hp]
      by_cases hq : (p.1 != k) = true
      · simp [List.filter_cons, hq, List.find?, hfind, ih]
      · simp [List.filter_cons, hq, List.find?, hfind, ih]

theorem aget_aset_ne {α : Type} (m : List (String × α)) (k k' : String) (v : α)
    (h : k' ≠ k) : aget (aset m k v) k' = aget m k' := by
  have hk : (k == k') = false := by
    simp
    exact fun he => h he.symm
  simp only [aget, aset, List.find?, hk]
  rw [find?_filter_ne m k k' h]

theorem aget_adel_self {α : Type} (m : List (String × α)) (k : String) :
    aget (adel m k) k = none := by
  induction m with
  | nil => rfl
  | cons p m ih =>
    by_cases hp : p.1 = k
    · have : (p.1 != k) = false := by simp [hp]
      simp [adel, List.filter_cons, this] at ih ⊢
      exact ih
    · have hq : (p.1 != k) = true := by simp [hp]
      have hfind : (p.1 == k) = false := by simp [hp]
      simp only [adel, List.filter_cons, hq, if_true]
      simp only [aget, List.find?, hfind] at ih ⊢
      exact ih

theorem aget_adel_ne {α : Type} (m : List (String × α)) (k k' : String)
    (h : k' ≠ k) : aget (adel m k) k' = aget m k' := by
  simp only [aget, adel]
  rw [find?_filter_ne m k k' h]

theorem aget_adel_none {α : Type} (m : List (String × α)) (k k' : String)
    (h : aget m k' = none) : aget (adel m k) k' = none := by
  by_cases hk : k' = k
  · rw [hk]; exact aget_adel_self m k
  · rw [aget_adel_ne m k k' hk]; exact h

/-- Key-preserving per-entry maps commute with lookup, and the update
applied is the one for the looked-up key. -/
theorem aget_map_update (cl : List (String × RoomClient))
    (g : String → RoomClient → RoomClient) (k : String) :
    aget (cl.map (fun kc => (kc.1, g kc.1 kc.2))) k = (aget cl k).map (g k) := by
  induction cl with
  | nil => rfl
  | cons p cl ih =>
    by_cases hp : p.1 = k
    · have hfind : (p.1 == k) = true := by simp [hp]
      simp [aget, List.find?, hfind, hp]
    · have hfind : (p.1 == k) = false := by simp [hp]
      simp only [aget, List.map, List.find?, hfind] at ih ⊢
      exact ih

theorem mem_map_update (cl : List (String × RoomClient))
    (g : String → RoomClient → RoomClient) (k : String) (c : RoomClient)
    (h : (k, c) ∈ cl.map (fun kc => (kc.1, g kc.1 kc.2))) :
    ∃ c0, (k, c0) ∈ cl ∧ c = g k c0 := by
  rcases List.mem_map.1 h with ⟨kc, hmem, heq⟩
  refine ⟨kc.2, ?_, ?_⟩
  · have : kc.1 = k := congrArg Prod.fst heq
    rw [← this]; exact hmem
  · have h1 : kc.1 = k := congrArg Prod.fst heq
    have h2 : g kc.1 kc.2 = c := congrArg Prod.snd heq
    rw [← h2, h1]

/-! ## Claim theorems -/

/-- C1 (amended): on a freshly refreshed worker pool, `getOptimalWorkerIndex`
returns the index of a slot carrying the minimal participant count, and on a
tie for the minimum it returns the *largest* such index (the `reduce` keeps
`prev` only on a strictly smaller count); consequently two back-to-back
placements on an empty room set both pick the highest index. -/
theorem getOptimalWorkerIndex_refreshed (poolSize : Nat) (hpos : 0 < poolSize)
    (rooms : List (Nat × Nat)) :
    ∃ s ∈ updateWorkerStats poolSize rooms,
      getOptimalWorkerIndex (updateWorkerStats poolSize rooms) = s.1 ∧
      (∀ x ∈ updateWorkerStats poolSize rooms, s.2 ≤ x.2) ∧
      (∀ x ∈ updateWorkerStats poolSize rooms, x.2 = s.2 → x.1 ≤ s.1) :=
  getOptimalWorkerIndex_spec _ (updateWorkerStats_ne_nil _ hpos _)
    (updateWorkerStats_pairwise _ _)

/-- C1 witness: a concrete refreshed pool. -/
theorem getOptimalWorkerIndex_refreshed_witness :
    0 < 2 ∧
    ∃ s ∈ updateWorkerStats 2 [(0, 5), (1, 2)],
      getOptimalWorkerIndex (updateWorkerStats 2 [(0, 5), (1, 2)]) = s.1 ∧
      (∀ x ∈ updateWorkerStats 2 [(0, 5), (1, 2)], s.2 ≤ x.2) ∧
      (∀ x ∈ updateWorkerStats 2 [(0, 5), (1, 2)], x.2 = s.2 → x.1 ≤ s.1) :=
  ⟨by decide, getOptimalWorkerIndex_refreshed 2 (by decide) [(0, 5), (1, 2)]⟩

/-- C1 counterexample: on a pool of two zeroed slots the source selects
index 1, not the claimed smallest index 0; registering the first room on
worker 1 (still empty) and refreshing, the second selection also returns 1,
so back-to-back placements give {1, 1}, not {0, 1}. -/
theorem getOptimalWorkerIndex_tie_counterexample :
    updateWorkerStats 2 [] = [(0, 0), (1, 0)] ∧
    getOptimalWorkerIndex (updateWorkerStats 2 []) = 1 ∧
    getOptimalWorkerIndex (updateWorkerStats 2 []) ≠ 0 ∧
    getOptimalWorkerIndex (updateWorkerStats 2 [(1, 0)]) = 1 := by decide

/-- C9: `addClient` on a `userId` already present in the room throws
`Peer already joined` (`DuplicateParticipant`), leaves the client map — and
the whole room state — unchanged, and the caught call returns `undefined`
rather than `true`. -/
theorem addClient_duplicate (room : MediasoupRoom) (q : ClientQuery)
    (existing : RoomClient) (h : aget room.clients q.userId = some existing) :
    addClientBody room q = .error .duplicateParticipant ∧
    addClient room q = (room, none) := by
  have hb : addClientBody room q = .error .duplicateParticipant := by
    unfold addClientBody
    rw [h]
    rfl
  exact ⟨hb, by unfold addClient; rw [hb]⟩

/-- C9 witness. -/
theorem addClient_duplicate_witness :
    aget dupRoom.clients "a" = some (bareClient "a") ∧
    addClient dupRoom { userId := "a" } = (dupRoom, none) :=
  ⟨by decide,
   (addClient_duplicate dupRoom { userId := "a" } (bareClient "a")
     (by decide)).2⟩

/-- C4: a non-global `producerPause` whose target's global enable flag for
the requested kind is already off returns before touching anything: the
room state is unchanged and no `mediaProducerPause` (or any other) event
is emitted. -/
theorem producerPause_global_off_noop (room : MediasoupRoom)
    (data : ProducerRequest) (tc : RoomClient)
    (h1 : aget room.clients data.userId = some tc)
    (h2 : data.isGlobal = false)
    (h3 : tc.getGlobalProducerCapabilitiesByKind data.kind = false) :
    producerPause room data = (room, []) := by
  unfold producerPause
  rw [h1]
  simp [h2, h3]

/-- C4 witness: a participant with `globalProduceAudioEnabled = false`. -/
theorem producerPause_global_off_noop_witness :
    aget globalOffRoom.clients "a" = some globalOffClient ∧
    producerPause globalOffRoom
      { userId := "a", kind := .audio, isGlobal := false } =
      (globalOffRoom, []) :=
  ⟨by decide,
   producerPause_global_off_noop globalOffRoom
     { userId := "a", kind := .audio, isGlobal := false } globalOffClient
     (by decide) rfl (by decide)⟩

/-- C3 (code evaluated at the failing input): on a joined participant
with a live unpaused audio producer and the global audio flag on, a
non-global `producerPause` followed by a non-global `producerResume`
leaves the producer live (neither closed nor paused) but leaves
`producerAudioEnabled = false`, because the resume path at
room.mediasoup.ts lines 1398-1404 sets the flag to `false` instead of
`true` (the spec flags this as a suspected code defect). -/
theorem producerResume_flag_bug :
    ((aget ((producerResume
        (producerPause liveAudioRoom
          { userId := "a", kind := .audio, isGlobal := false }).1
        { userId := "a", kind := .audio, isGlobal := false }).1.clients)
        "a").map (fun u => (u.producerAudioEnabled,
          u.media.producerAudio.map (fun p => (p.paused, p.closed))))) =
      some (false, some (false, false)) := by decide

/-- C10: the `consumersAudio` accessor of `RoomClient` returns the map
stored in `media.consumersVideo`; a consumer written directly into
`media.consumersAudio` (as the push flow does) is invisible through the
accessor whenever the video map lacks its key, while video-map entries
are always visible through it. -/
theorem consumersAudio_aliases_video (c : RoomClient) (k : String)
    (x : Consumer) :
    RoomClient.consumersAudio c = c.media.consumersVideo ∧
    (aget c.media.consumersVideo k = none →
      aget (RoomClient.consumersAudio (storeAudioDirect c k x)) k = none) ∧
    (∀ v, aget c.media.consumersVideo k = some v →
      aget (RoomClient.consumersAudio c) k = some v) := by
  refine ⟨rfl, ?_, ?_⟩
  · intro h
    simpa [RoomClient.consumersAudio, storeAudioDirect] using h
  · intro v h
    simpa [RoomClient.consumersAudio] using h

/-- C10 witness: an audio consumer stored for key "z". -/
theorem consumersAudio_aliases_video_witness :
    RoomClient.consumersAudio consumingClient =
      consumingClient.media.consumersVideo ∧
    aget consumingClient.media.consumersVideo "z" = none ∧
    aget (RoomClient.consumersAudio (storeAudioDirect consumingClient "z"
      { id := 9, producerId := 8, kind := .audio, paused := false,
        closed := false })) "z" = none :=
  ⟨(consumersAudio_aliases_video consumingClient "z"
      { id := 9, producerId := 8, kind := .audio, paused := false,
        closed := false }).1,
   by decide,
   (consumersAudio_aliases_video consumingClient "z"
      { id := 9, producerId := 8, kind := .audio, paused := false,
        closed := false }).2.1 (by decide)⟩

/-- C5: a pull-flow `consume` whose targeted producer slot is empty, whose
rtp capabilities are missing or empty (the router refuses empty
capabilities, hypothesis `hempty`), or for which `router.canConsume`
returns `false`, throws `CannotConsume`; the caught call returns
`undefined` with the room unchanged, so no consumer is created or stored
in any per-peer map. -/
theorem consume_failure_guard (canCons : Nat → RtpCaps → Bool)
    (room : MediasoupRoom) (uid : String) (data : ConsumeData)
    (target : RoomClient)
    (hempty : ∀ pid, canCons pid [] = false)
    (ht : aget room.clients data.userId = some target)
    (hcond :
      producerOfTag target.media data.mediaTag = none ∨
      data.rtpCapabilities = none ∨
      data.rtpCapabilities = some [] ∨
      (∀ tp caps, producerOfTag target.media data.mediaTag = some tp →
        data.rtpCapabilities = some caps → canCons tp.id caps = false)) :
    consumeBody canCons room uid data = .error .cannotConsume ∧
    consume canCons room uid data = (room, none) := by
  have hb : consumeBody canCons room uid data = .error .cannotConsume := by
    rcases hprod : producerOfTag target.media data.mediaTag with _ | tp
    · simp [consumeBody, ht, hprod]
    · rcases hcaps : data.rtpCapabilities with _ | caps
      · simp [consumeBody, ht, hprod, hcaps]
      · have hcc : canCons tp.id caps = false := by
          rcases hcond with h | h | h | h
          · rw [hprod] at h; cases h
          · rw [hcaps] at h; cases h
          · rw [hcaps] at h
            injection h with h
            rw [← h] at hempty
            exact hempty tp.id
          · exact h tp caps hprod hcaps
        simp [consumeBody, ht, hprod, hcaps, hcc]
  exact ⟨hb, by unfold consume; rw [hb]⟩

/-- C5 witness: consuming "a"'s absent video producer. -/
theorem consume_failure_guard_witness :
    ((∀ pid : Nat, (fun (_ : Nat) (_ : RtpCaps) => true) pid [] = false) →
      False) ∧
    consume (fun _ c => !c.isEmpty) produceRoom "b"
      { userId := "a", kind := .video, mediaTag := .video,
        rtpCapabilities := some [1] } = (produceRoom, none) :=
  ⟨fun h => by simpa using h 0,
   (consume_failure_guard (fun _ c => !c.isEmpty) produceRoom "b"
      { userId := "a", kind := .video, mediaTag := .video,
        rtpCapabilities := some [1] } producingClient
      (by intro pid; rfl) (by decide) (Or.inl (by decide))).2⟩

/-- C2: a successful `produce` pauses an audio or video producer right
after creation, leaves a `screen-media` producer running and sets
`isScreenSharing`; a subsequent pull `consume` of that screen producer by
a peer reports `producerPaused = false`. -/
theorem produce_pause_policy (canCons : Nat → RtpCaps → Bool)
    (room : MediasoupRoom) (uid : String) (user : RoomClient)
    (h1 : aget room.clients uid = some user)
    (h2 : ∃ t, user.media.producerTransport = some t) :
    (∃ u, aget (produce room uid .audio MediaTag.audio).1.clients uid = some u ∧
      ∃ p, u.media.producerAudio = some p ∧ p.paused = true) ∧
    (∃ u, aget (produce room uid .video MediaTag.video).1.clients uid = some u ∧
      ∃ p, u.media.producerVideo = some p ∧ p.paused = true) ∧
    (∃ u, aget (produce room uid .video MediaTag.screenMedia).1.clients uid =
        some u ∧ u.isScreenSharing = true ∧
      ∃ p, u.media.producerScreen = some p ∧ p.paused = false) ∧
    (∀ uid2 peer caps, uid2 ≠ uid →
      aget room.clients uid2 = some peer →
      (∃ t2, peer.media.consumerTransport = some t2) →
      canCons room.freshId caps = true →
      ∃ res, (consume canCons (produce room uid .video MediaTag.screenMedia).1
          uid2 { userId := uid, kind := .video, mediaTag := .screenMedia,
                 rtpCapabilities := some caps }).2 = some res ∧
        res.producerPaused = false) := by
  obtain ⟨t, ht⟩ := h2
  refine ⟨?_, ?_, ?_, ?_⟩
  · simp [produce, produceBody, h1, ht, aget_aset_self]
  · simp [produce, produceBody, h1, ht, aget_aset_self]
  · simp [produce, produceBody, h1, ht, aget_aset_self]
  · intro uid2 peer caps hne hp hpt hcc
    obtain ⟨t2, ht2⟩ := hpt
    have hr1 : aget (produce room uid .video MediaTag.screenMedia).1.clients
        uid2 = some peer := by
      simp [produce, produceBody, h1, ht, aget_aset_ne _ _ _ _ hne, hp]
    have hr2 : ∃ u, aget (produce room uid .video MediaTag.screenMedia).1.clients
        uid = some u ∧ u.media.producerScreen =
          some { id := room.freshId, kind := .video, mediaTag := .screenMedia,
                 paused := false, closed := false } := by
      simp [produce, produceBody, h1, ht, aget_aset_self]
    obtain ⟨u1, hu1, hscreen⟩ := hr2
    simp only [consume, consumeBody, hu1, hr1, producerOfTag, hscreen, hcc, ht2]
    simp

/-- C2 witness: "a" produces on `produceRoom`; "b" pull-consumes the
screen producer. -/
theorem produce_pause_policy_witness :
    aget produceRoom.clients "a" = some producingClient ∧
    (∃ res, (consume (fun _ _ => true)
        (produce produceRoom "a" .video MediaTag.screenMedia).1 "b"
        { userId := "a", kind := .video, mediaTag := .screenMedia,
          rtpCapabilities := some [1] }).2 = some res ∧
      res.producerPaused = false) :=
  ⟨by decide,
   (produce_pause_policy (fun _ _ => true) produceRoom "a" producingClient
      (by decide) ⟨openTransport 100, rfl⟩).2.2.2 "b" consumingClient [1]
      (by decide) (by decide) ⟨openTransport 101, rfl⟩ rfl⟩

/-- C7 (amended): the recomputed bitrate equals the JS-round formula
clamped below by the minimum, overridden to the maximum when fewer than 3
producers exist; it is at least the minimum when at least 3 producers
exist or when the configured maximum dominates the minimum; and it is
applied to every open producer and consumer transport of the room. -/
theorem updateMaxIncomingBitrate_spec (minB maxB factor : ℚ)
    (room : MediasoupRoom) :
    ((producerIds room).length < 3 →
      newMaxIncomingBitrate minB maxB factor (producerIds room).length = maxB) ∧
    (3 ≤ (producerIds room).length →
      minB ≤ newMaxIncomingBitrate minB maxB factor (producerIds room).length) ∧
    (minB ≤ maxB →
      minB ≤ newMaxIncomingBitrate minB maxB factor (producerIds room).length) ∧
    (∀ k c, (k, c) ∈ (updateMaxIncomingBitrate minB maxB factor room).clients →
      (∀ t, c.media.producerTransport = some t → t.closed = false →
        t.maxIncomingBitrate =
          some (newMaxIncomingBitrate minB maxB factor (producerIds room).length)) ∧
      (∀ t, c.media.consumerTransport = some t → t.closed = false →
        t.maxIncomingBitrate =
          some (newMaxIncomingBitrate minB maxB factor (producerIds room).length))) := by
  refine ⟨?_, ?_, ?_, ?_⟩
  · intro h
    simp [newMaxIncomingBitrate, h]
  · intro h
    simp only [newMaxIncomingBitrate]
    split_ifs with hlt hraw
    · exact absurd hlt (by omega)
    · exact le_refl minB
    · exact le_of_not_lt hraw
  · intro hm
    simp only [newMaxIncomingBitrate]
    split_ifs with hlt hraw
    · exact hm
    · exact le_refl minB
    · exact le_of_not_lt hraw
  · intro k c hmem
    unfold updateMaxIncomingBitrate at hmem
    obtain ⟨c0, _, rfl⟩ := mem_map_update room.clients
      (fun _ c => { c with media := { c.media with
        producerTransport := setTransportBitrate c.media.producerTransport
          (newMaxIncomingBitrate minB maxB factor (producerIds room).length),
        consumerTransport := setTransportBitrate c.media.consumerTransport
          (newMaxIncomingBitrate minB maxB factor (producerIds room).length) } })
      k c hmem
    constructor
    · intro t htr hcl
      rcases h0 : c0.media.producerTransport with _ | t0
      · simp [setTransportBitrate, h0] at htr
      · by_cases hc0 : t0.closed
        · simp [setTransportBitrate, h0, hc0] at htr
          rw [← htr] at hcl
          exact absurd hc0 (by simp [hcl])
        · simp [setTransportBitrate, h0, hc0] at htr
          rw [← htr]
    · intro t htr hcl
      rcases h0 : c0.media.consumerTransport with _ | t0
      · simp [setTransportBitrate, h0] at htr
      · by_cases hc0 : t0.closed
        · simp [setTransportBitrate, h0, hc0] at htr
          rw [← htr] at hcl
          exact absurd hc0 (by simp [hcl])
        · simp [setTransportBitrate, h0, hc0] at htr
          rw [← htr]

/-- C7 witness: three producers on `bitrateRoom`. -/
theorem updateMaxIncomingBitrate_spec_witness :
    3 ≤ (producerIds bitrateRoom).length ∧
    (1 : ℚ) ≤ newMaxIncomingBitrate 1 9 3 (producerIds bitrateRoom).length :=
  ⟨by decide, (updateMaxIncomingBitrate_spec 1 9 3 bitrateRoom).2.1 (by decide)⟩

/-- C7 counterexample: the source rounds (`Math.round`) where the claim
says `floor`: with `min = 1`, `max = 9`, `factor = 3` and 3 producers the
source applies 2 while the claimed formula gives 1 (observable on the
open consumer transport of `bitrateRoom`); moreover with the shipped
configuration (`max = 200000 < min = 600000`) and 2 producers the applied
value `200000` is *below* the minimum, refuting the claimed
`always ≥ min_outgoing`. -/
theorem updateMaxIncomingBitrate_counterexample :
    newMaxIncomingBitrate 1 9 3 3 = 2 ∧
    claimedMaxIncomingBitrate 1 9 3 3 = 1 ∧
    ((2 : ℚ) = 1 → False) ∧
    ((aget (updateMaxIncomingBitrate 1 9 3 bitrateRoom).clients "a").map
      (fun u => u.media.consumerTransport.map Transport.maxIncomingBitrate)) =
      some (some (some 2)) ∧
    newMaxIncomingBitrate 600000 200000 (3 / 4) 2 = 200000 ∧
    ((600000 : ℚ) ≤ 200000 → False) := by
  refine ⟨?_, ?_, by norm_num, ?_, ?_, by norm_num⟩
  · norm_num [newMaxIncomingBitrate, jsRound]
  · norm_num [claimedMaxIncomingBitrate]
  · have hlen : (producerIds bitrateRoom).length = 3 := by decide
    have hv : newMaxIncomingBitrate 1 9 3 (producerIds bitrateRoom).length = 2 := by
      rw [hlen]
      norm_num [newMaxIncomingBitrate, jsRound]
    simp only [updateMaxIncomingBitrate, hv]
    decide
  · norm_num [newMaxIncomingBitrate, jsRound]

/-- C8: the command dispatcher never lets an error escape to its caller:
an action outside the closed action set throws `UnknownAction` inside the
`try`, and every error reaching the dispatcher's `catch` is converted
into the returned value `false` rather than a propagated exception. -/
theorem speakMsClient_no_throw (canCons : Nat → RtpCaps → Bool)
    (room : MediasoupRoom) (uid action : String) (data : MsgData) :
    (action ∉ knownActions →
      speakMsClientBody canCons room uid action data = .error .unknownAction ∧
      speakMsClient canCons room uid action data = (room, [], .boolean false)) ∧
    (∀ e, speakMsClientBody canCons room uid action data = .error e →
      speakMsClient canCons room uid action data = (room, [], .boolean false)) := by
  constructor
  · intro hn
    simp only [knownActions, List.mem_cons, List.not_mem_nil, or_false,
      not_or] at hn
    obtain ⟨h1, h2, h3, h4, h5, h6, h7, h8, h9, h10, h11, h12, h13, h14,
      h15, h16, h17, h18⟩ := hn
    have hb : speakMsClientBody canCons room uid action data =
        .error .unknownAction := by
      unfold speakMsClientBody
      rw [if_neg h1, if_neg h2, if_neg h3, if_neg h4, if_neg h5, if_neg h6,
        if_neg h7, if_neg h8, if_neg h9, if_neg h10, if_neg h11, if_neg h12,
        if_neg h13, if_neg h14, if_neg h15, if_neg h16, if_neg h17, if_neg h18]
    exact ⟨hb, by unfold speakMsClient; rw [hb]⟩
  · intro e he
    unfold speakMsClient
    rw [he]

/-- C8 witness: the unknown action "bogus" on an empty room. -/
theorem speakMsClient_no_throw_witness :
    "bogus" ∉ knownActions ∧
    speakMsClient (fun _ _ => true) {} "u" "bogus" {} =
      ({}, [], .boolean false) :=
  ⟨by decide,
   ((speakMsClient_no_throw (fun _ _ => true) {} "u" "bogus" {}).1
     (by decide)).2⟩

/-- C6 counterexample: removing "a" from `teardownRoom` closes its video
producer, then its producer transport, then its consumer transport, and
only then (by the transport-close cascade) its consumer of "b" — the
claimed producers → consumers → transports order is violated. -/
theorem removeClient_order_counterexample :
    (removeClient teardownRoom "a").2.1 =
      [CloseEv.producer "a" .video, CloseEv.transport "a" .producerT,
       CloseEv.transport "a" .consumerT, CloseEv.consumer "a" "b" .video] ∧
    claimedTeardownOrder "a" (removeClient teardownRoom "a").2.1 = false := by
  decide

/-! ## Tag-algebra and cascade lemmas for the tear-down theorem -/

theorem consumersOfTag_setProducerOfTag (m : IMediasoupClient)
    (tag tag' : MediaTag) (v : Option Producer) :
    consumersOfTag (setProducerOfTag m tag v) tag' = consumersOfTag m tag' := by
  cases tag <;> cases tag' <;> rfl

theorem consumersOfTag_setConsumersOfTag_same (m : IMediasoupClient)
    (tag : MediaTag) (v : List (String × Consumer)) :
    consumersOfTag (setConsumersOfTag m tag v) tag = v := by
  cases tag <;> rfl

theorem consumersOfTag_setConsumersOfTag_ne (m : IMediasoupClient)
    (tag tag' : MediaTag) (v : List (String × Consumer)) (h : tag' ≠ tag) :
    consumersOfTag (setConsumersOfTag m tag v) tag' = consumersOfTag m tag' := by
  cases tag <;> cases tag' <;> first | rfl | exact absurd rfl h

theorem producerOfTag_setProducerOfTag_ne (m : IMediasoupClient)
    (tag tag' : MediaTag) (v : Option Producer) (h : tag' ≠ tag) :
    producerOfTag (setProducerOfTag m tag v) tag' = producerOfTag m tag' := by
  cases tag <;> cases tag' <;> first | rfl | exact absurd rfl h

theorem producerOfTag_setConsumersOfTag (m : IMediasoupClient)
    (tag tag' : MediaTag) (v : List (String × Consumer)) :
    producerOfTag (setConsumersOfTag m tag v) tag' = producerOfTag m tag' := by
  cases tag <;> cases tag' <;> rfl

theorem setProducerOfTag_pt (m : IMediasoupClient) (tag : MediaTag)
    (v : Option Producer) :
    (setProducerOfTag m tag v).producerTransport = m.producerTransport := by
  cases tag <;> rfl

theorem setProducerOfTag_ct (m : IMediasoupClient) (tag : MediaTag)
    (v : Option Producer) :
    (setProducerOfTag m tag v).consumerTransport = m.consumerTransport := by
  cases tag <;> rfl

theorem setConsumersOfTag_pt (m : IMediasoupClient) (tag : MediaTag)
    (v : List (String × Consumer)) :
    (setConsumersOfTag m tag v).producerTransport = m.producerTransport := by
  cases tag <;> rfl

theorem setConsumersOfTag_ct (m : IMediasoupClient) (tag : MediaTag)
    (v : List (String × Consumer)) :
    (setConsumersOfTag m tag v).consumerTransport = m.consumerTransport := by
  cases tag <;> rfl

theorem producerOfTag_mediaPT (m : IMediasoupClient) (v : Option Transport)
    (tag : MediaTag) :
    producerOfTag { m with producerTransport := v } tag = producerOfTag m tag := by
  cases tag <;> rfl

theorem consumersOfTag_mediaPT (m : IMediasoupClient) (v : Option Transport)
    (tag : MediaTag) :
    consumersOfTag { m with producerTransport := v } tag =
      consumersOfTag m tag := by
  cases tag <;> rfl

theorem cascadeUpd_consumers_same (o : String) (tag : MediaTag) (k : String)
    (c : RoomClient) :
    consumersOfTag (cascadeUpd o tag k c).media tag =
      adel (consumersOfTag c.media tag) o := by
  unfold cascadeUpd dropConsumerOf
  dsimp only
  by_cases hk : (k == o) = true
  · rw [if_pos hk]
    rw [consumersOfTag_setConsumersOfTag_same, consumersOfTag_setProducerOfTag]
  · rw [if_neg hk]
    rw [consumersOfTag_setConsumersOfTag_same]

theorem cascadeUpd_consumers_ne (o : String) (tag tag' : MediaTag) (k : String)
    (c : RoomClient) (h : tag' ≠ tag) :
    consumersOfTag (cascadeUpd o tag k c).media tag' =
      consumersOfTag c.media tag' := by
  unfold cascadeUpd dropConsumerOf
  dsimp only
  by_cases hk : (k == o) = true
  · rw [if_pos hk]
    rw [consumersOfTag_setConsumersOfTag_ne _ _ _ _ h,
      consumersOfTag_setProducerOfTag]
  · rw [if_neg hk]
    rw [consumersOfTag_setConsumersOfTag_ne _ _ _ _ h]

theorem cascadeUpd_producer_ne (o : String) (tag tag' : MediaTag) (k : String)
    (c : RoomClient) (h : tag' ≠ tag) :
    producerOfTag (cascadeUpd o tag k c).media tag' =
      producerOfTag c.media tag' := by
  unfold cascadeUpd dropConsumerOf
  dsimp only
  by_cases hk : (k == o) = true
  · rw [if_pos hk]
    rw [producerOfTag_setConsumersOfTag,
      producerOfTag_setProducerOfTag_ne _ _ _ _ h]
  · rw [if_neg hk]
    rw [producerOfTag_setConsumersOfTag]

theorem cascadeUpd_pt (o : String) (tag : MediaTag) (k : String)
    (c : RoomClient) :
    (cascadeUpd o tag k c).media.producerTransport =
      c.media.producerTransport := by
  unfold cascadeUpd dropConsumerOf
  dsimp only
  by_cases hk : (k == o) = true
  · rw [if_pos hk]
    rw [setConsumersOfTag_pt, setProducerOfTag_pt]
  · rw [if_neg hk]
    rw [setConsumersOfTag_pt]

theorem cascadeUpd_ct (o : String) (tag : MediaTag) (k : String)
    (c : RoomClient) :
    (cascadeUpd o tag k c).media.consumerTransport =
      c.media.consumerTransport := by
  unfold cascadeUpd dropConsumerOf
  dsimp only
  by_cases hk : (k == o) = true
  · rw [if_pos hk]
    rw [setConsumersOfTag_ct, setProducerOfTag_ct]
  · rw [if_neg hk]
    rw [setConsumersOfTag_ct]

theorem aget_closeProducerCascade (cl : List (String × RoomClient))
    (o : String) (tag : MediaTag) (k : String) :
    aget (closeProducerCascade cl o tag) k = (aget cl k).map (cascadeUpd o tag k) :=
  aget_map_update cl (cascadeUpd o tag) k

theorem mem_closeProducerCascade (cl : List (String × RoomClient))
    (o : String) (tag : MediaTag) (k : String) (c : RoomClient)
    (h : (k, c) ∈ closeProducerCascade cl o tag) :
    ∃ c0, (k, c0) ∈ cl ∧ c = cascadeUpd o tag k c0 :=
  mem_map_update cl (cascadeUpd o tag) k c h

theorem aget_updClient_self (cl : List (String × RoomClient)) (key : String)
    (f : RoomClient → RoomClient) :
    aget (updClient cl key f) key = (aget cl key).map f := by
  unfold updClient
  rw [aget_map_update cl (fun k c => if k == key then f c else c) key]
  simp

theorem mem_updClient (cl : List (String × RoomClient)) (key : String)
    (f : RoomClient → RoomClient) (k : String) (c : RoomClient)
    (h : (k, c) ∈ updClient cl key f) (hk : k ≠ key) : (k, c) ∈ cl := by
  obtain ⟨c0, hc0, hc⟩ :=
    mem_map_update cl (fun k c => if k == key then f c else c) k c h
  have hb : (k == key) = false := by
    simp
    exact hk
  rw [hb] at hc
  simp at hc
  rw [hc]
  exact hc0

/-! NoRef preservation and establishment through the tear-down steps. -/

theorem NoRef_closeProducerCascade_self (cl : List (String × RoomClient))
    (u : String) (tag : MediaTag) :
    NoRef (closeProducerCascade cl u tag) u tag := by
  intro k c hmem _
  obtain ⟨c0, _, rfl⟩ := mem_closeProducerCascade cl u tag k c hmem
  rw [cascadeUpd_consumers_same]
  exact aget_adel_self _ _

theorem NoRef_closeProducerCascade (cl : List (String × RoomClient))
    (o : String) (tag₂ : MediaTag) (u : String) (tag : MediaTag)
    (h : NoRef cl u tag) : NoRef (closeProducerCascade cl o tag₂) u tag := by
  intro k c hmem hk
  obtain ⟨c0, hc0, rfl⟩ := mem_closeProducerCascade cl o tag₂ k c hmem
  by_cases ht : tag = tag₂
  · subst ht
    rw [cascadeUpd_consumers_same]
    exact aget_adel_none _ _ _ (h k c0 hc0 hk)
  · rw [cascadeUpd_consumers_ne _ _ _ _ _ ht]
    exact h k c0 hc0 hk

theorem NoRef_updClient (cl : List (String × RoomClient)) (u : String)
    (f : RoomClient → RoomClient) (tag : MediaTag) (h : NoRef cl u tag) :
    NoRef (updClient cl u f) u tag := by
  intro k c hmem hk
  exact h k c (mem_updClient cl u f k c hmem hk) hk

theorem NoRef_cascadeStep (o : String)
    (acc : List (String × RoomClient) × List CloseEv) (tag₂ : MediaTag)
    (u : String) (tag : MediaTag) (h : NoRef acc.1 u tag) :
    NoRef (cascadeStep o acc tag₂).1 u tag := by
  unfold cascadeStep
  cases hm : aget acc.1 o with
  | none => exact h
  | some cc =>
    by_cases hc : producerOpen (producerOfTag cc.media tag₂) = true
    · simp only [hc, if_true]
      exact NoRef_closeProducerCascade acc.1 o tag₂ u tag h
    · simp only [hc, if_false]
      exact h

theorem cascadeStep_establish (o : String)
    (acc : List (String × RoomClient) × List CloseEv) (tag : MediaTag)
    (cc : RoomClient) (hm : aget acc.1 o = some cc)
    (hopen : producerOpen (producerOfTag cc.media tag) = true) :
    NoRef (cascadeStep o acc tag).1 o tag := by
  unfold cascadeStep
  rw [hm]
  simp only [hopen, if_true]
  exact NoRef_closeProducerCascade_self acc.1 o tag

theorem cascadeStep_entry (o : String)
    (acc : List (String × RoomClient) × List CloseEv) (tag₂ : MediaTag)
    (cc : RoomClient) (hm : aget acc.1 o = some cc) :
    ∃ cc', aget (cascadeStep o acc tag₂).1 o = some cc' ∧
      (∀ tag', tag' ≠ tag₂ →
        producerOfTag cc'.media tag' = producerOfTag cc.media tag') ∧
      cc'.media.producerTransport = cc.media.producerTransport ∧
      cc'.media.consumerTransport = cc.media.consumerTransport := by
  unfold cascadeStep
  rw [hm]
  by_cases hc : producerOpen (producerOfTag cc.media tag₂) = true
  · simp only [hc, if_true]
    refine ⟨cascadeUpd o tag₂ o cc, ?_, ?_, ?_, ?_⟩
    · rw [aget_closeProducerCascade, hm]
      rfl
    · intro tag' ht
      exact cascadeUpd_producer_ne o tag₂ tag' o cc ht
    · exact cascadeUpd_pt o tag₂ o cc
    · exact cascadeUpd_ct o tag₂ o cc
  · simp only [hc, if_false]
    exact ⟨cc, hm, fun _ _ => rfl, rfl, rfl⟩

theorem NoRef_closeProducerStep (cl : List (String × RoomClient))
    (o : String) (tag₂ : MediaTag) (u : String) (tag : MediaTag)
    (h : NoRef cl u tag) : NoRef (closeProducerStep cl o tag₂).1 u tag :=
  NoRef_cascadeStep o (cl, []) tag₂ u tag h

theorem closeProducerStep_establish (cl : List (String × RoomClient))
    (u : String) (tag : MediaTag) (cu : RoomClient)
    (hm : aget cl u = some cu)
    (hopen : producerOpen (producerOfTag cu.media tag) = true) :
    NoRef (closeProducerStep cl u tag).1 u tag :=
  cascadeStep_establish u (cl, []) tag cu hm hopen

theorem closeProducerStep_entry (cl : List (String × RoomClient))
    (o : String) (tag₂ : MediaTag) (cc : RoomClient)
    (hm : aget cl o = some cc) :
    ∃ cc', aget (closeProducerStep cl o tag₂).1 o = some cc' ∧
      (∀ tag', tag' ≠ tag₂ →
        producerOfTag cc'.media tag' = producerOfTag cc.media tag') ∧
      cc'.media.producerTransport = cc.media.producerTransport ∧
      cc'.media.consumerTransport = cc.media.consumerTransport :=
  cascadeStep_entry o (cl, []) tag₂ cc hm

theorem NoRef_closeProducerTransportStep (cl : List (String × RoomClient))
    (u : String) (tag : MediaTag) (h : NoRef cl u tag) :
    NoRef (closeProducerTransportStep cl u).1 u tag := by
  unfold closeProducerTransportStep
  cases hm : aget cl u with
  | none => exact h
  | some cc =>
    dsimp only
    cases htr : cc.media.producerTransport with
    | none => exact h
    | some t =>
      dsimp only
      by_cases hcl : t.closed = true
      · rw [if_pos hcl]
        exact h
      · rw [if_neg hcl]
        dsimp only [cascadeOpenProducers, List.foldl]
        have h1 : NoRef (updClient cl u (markPTClosed t)) u tag :=
          NoRef_updClient cl u (markPTClosed t) tag h
        exact NoRef_cascadeStep _ _ _ _ _ (NoRef_cascadeStep _ _ _ _ _
          (NoRef_cascadeStep _ _ _ _ _ h1))

theorem NoRef_closeConsumerTransportStep (cl : List (String × RoomClient))
    (u : String) (tag : MediaTag) (h : NoRef cl u tag) :
    NoRef (closeConsumerTransportStep cl u).1 u tag := by
  unfold closeConsumerTransportStep
  cases hm : aget cl u with
  | none => exact h
  | some cc =>
    dsimp only
    cases htr : cc.media.consumerTransport with
    | none => exact h
    | some t =>
      dsimp only
      by_cases hcl : t.closed = true
      · rw [if_pos hcl]
        exact h
      · rw [if_neg hcl]
        exact NoRef_updClient cl u (markCTClosed t) tag h

/-- Inside the producer-transport close, the screen producer (still open,
with the transport itself open) is cascaded, clearing every dependent
screen consumer. -/
theorem closeProducerTransportStep_screen (cl : List (String × RoomClient))
    (u : String) (cu2 : RoomClient) (t : Transport)
    (hm : aget cl u = some cu2)
    (hopen : producerOpen cu2.media.producerScreen = true)
    (ht : cu2.media.producerTransport = some t)
    (hcl : t.closed = false) :
    NoRef (closeProducerTransportStep cl u).1 u MediaTag.screenMedia := by
  unfold closeProducerTransportStep
  rw [hm]
  dsimp only
  rw [ht]
  dsimp only
  rw [if_neg (by rw [hcl]; exact Bool.false_ne_true)]
  dsimp only [cascadeOpenProducers, List.foldl]
  have h0 : aget (updClient cl u (markPTClosed t)) u =
      some (markPTClosed t cu2) := by
    rw [aget_updClient_self, hm]
    rfl
  obtain ⟨c1, h1, hp1, _, _⟩ := cascadeStep_entry u (_, []) MediaTag.video _ h0
  obtain ⟨c2, h2, hp2, _, _⟩ := cascadeStep_entry u _ MediaTag.audio _ h1
  refine cascadeStep_establish u _ MediaTag.screenMedia c2 h2 ?_
  rw [hp2 MediaTag.screenMedia (by decide), hp1 MediaTag.screenMedia (by decide)]
  rw [show producerOfTag (markPTClosed t cu2).media MediaTag.screenMedia =
      producerOfTag cu2.media MediaTag.screenMedia from
    producerOfTag_mediaPT cu2.media _ _]
  exact hopen

/-! Event-shape lemmas for the trace decomposition. -/

theorem cascadeStep_evs (o : String)
    (acc : List (String × RoomClient) × List CloseEv) (tag₂ : MediaTag) :
    ∀ ev ∈ (cascadeStep o acc tag₂).2, ev ∈ acc.2 ∨
      ev = CloseEv.producer o tag₂ := by
  unfold cascadeStep
  cases hm : aget acc.1 o with
  | none => exact fun ev h => Or.inl h
  | some cc =>
    by_cases hc : producerOpen (producerOfTag cc.media tag₂) = true
    · simp only [hc, if_true]
      intro ev h
      rcases List.mem_append.1 h with h | h
      · exact Or.inl h
      · simp at h
        exact Or.inr h
    · simp only [hc, if_false]
      exact fun ev h => Or.inl h

theorem closeProducerStep_evs (cl : List (String × RoomClient))
    (o : String) (tag : MediaTag) :
    ∀ ev ∈ (closeProducerStep cl o tag).2, ev = CloseEv.producer o tag := by
  intro ev h
  rcases cascadeStep_evs o (cl, []) tag ev h with h | h
  · cases h
  · exact h

theorem closeProducerTransportStep_evs (cl : List (String × RoomClient))
    (o : String) :
    (closeProducerTransportStep cl o).2 = [] ∨
    ∃ evs, (closeProducerTransportStep cl o).2 =
        CloseEv.transport o TransportSide.producerT :: evs ∧
      ∀ ev ∈ evs, ∃ tag, ev = CloseEv.producer o tag := by
  unfold closeProducerTransportStep
  cases hm : aget cl o with
  | none => exact Or.inl rfl
  | some cc =>
    dsimp only
    cases htr : cc.media.producerTransport with
    | none => exact Or.inl rfl
    | some t =>
      dsimp only
      by_cases hcl : t.closed = true
      · rw [if_pos hcl]
        exact Or.inl rfl
      · rw [if_neg hcl]
        refine Or.inr ⟨_, rfl, ?_⟩
        intro ev h
        dsimp only [cascadeOpenProducers, List.foldl] at h
        rcases cascadeStep_evs o _ MediaTag.screenMedia ev h with h | h
        · rcases cascadeStep_evs o _ MediaTag.audio ev h with h | h
          · rcases cascadeStep_evs o _ MediaTag.video ev h with h | h
            · cases h
            · exact ⟨MediaTag.video, h⟩
          · exact ⟨MediaTag.audio, h⟩
        · exact ⟨MediaTag.screenMedia, h⟩

theorem closeConsumerTransportStep_evs (cl : List (String × RoomClient))
    (o : String) :
    (closeConsumerTransportStep cl o).2 = [] ∨
    ∃ evs, (closeConsumerTransportStep cl o).2 =
        CloseEv.transport o TransportSide.consumerT :: evs ∧
      ∀ ev ∈ evs, ∃ p tag, ev = CloseEv.consumer o p tag := by
  unfold closeConsumerTransportStep
  cases hm : aget cl o with
  | none => exact Or.inl rfl
  | some cc =>
    dsimp only
    cases htr : cc.media.consumerTransport with
    | none => exact Or.inl rfl
    | some t =>
      dsimp only
      by_cases hcl : t.closed = true
      · rw [if_pos hcl]
        exact Or.inl rfl
      · rw [if_neg hcl]
        refine Or.inr ⟨_, rfl, ?_⟩
        intro ev h
        rcases List.mem_append.1 h with h | h
        · rcases List.mem_append.1 h with h | h
          · rcases List.mem_map.1 h with ⟨p, _, rfl⟩
            exact ⟨p.1, MediaTag.screenMedia, rfl⟩
          · rcases List.mem_map.1 h with ⟨p, _, rfl⟩
            exact ⟨p.1, MediaTag.video, rfl⟩
        · rcases List.mem_map.1 h with ⟨p, _, rfl⟩
          exact ⟨p.1, MediaTag.audio, rfl⟩

/-- C6 (amended): `removeClient` tears down the participant's video and
audio producers first, then its producer transport (whose worker cascade
closes a still-open screen producer), then its consumer transport, whose
cascade closes the participant's consumers — so every close of one of its
consumers comes *after* all of its producer and transport closes, rather
than between the producers and the transports; then the participant is
deleted from the mapping, and afterwards no remaining client's consumer
maps reference the participant. Hypotheses: the participant exists; a
peer consumer referencing `u` implies `u` holds the matching live
producer (§3 invariant); a live producer implies a live producer
transport (§3 invariant, needed for the screen slot); and `u` does not
consume itself. -/
theorem removeClient_spec (room : MediasoupRoom) (u : String)
    (cu : RoomClient)
    (hu : aget room.clients u = some cu)
    (href : ∀ p ∈ room.clients, ∀ tag,
      (aget (consumersOfTag (Prod.snd p).media tag) u).isSome →
      producerOpen (producerOfTag cu.media tag) = true)
    (hscr : producerOpen cu.media.producerScreen = true →
      ∃ t, cu.media.producerTransport = some t ∧ t.closed = false) :
    aget (removeClient room u).1.clients u = none ∧
    (∀ k c, (k, c) ∈ (removeClient room u).1.clients → ∀ tag,
      aget (consumersOfTag c.media tag) u = none) ∧
    (∃ t1 t2, (removeClient room u).2.1 = t1 ++ t2 ∧
      (∀ ev ∈ t1, ∀ o p tag, ev ≠ CloseEv.consumer o p tag) ∧
      (∀ ev ∈ t2, ∀ o tag, ev ≠ CloseEv.producer o tag) ∧
      (∀ ev ∈ t2, ∀ o s, ev ≠ CloseEv.transport o s)) := by
  have hrem1 : (removeClient room u).1 =
      { room with clients := adel (closeMediaClient room.clients u).1 u } := by
    unfold removeClient
    rw [hu]
  have hrem2 : (removeClient room u).2.1 =
      (closeMediaClient room.clients u).2 := by
    unfold removeClient
    rw [hu]
  -- entry tracking through the first two steps
  obtain ⟨cu1, hcu1, hp1, ht1p, ht1c⟩ :=
    closeProducerStep_entry room.clients u MediaTag.video cu hu
  obtain ⟨cu2, hcu2, hp2, ht2p, ht2c⟩ :=
    closeProducerStep_entry _ u MediaTag.audio cu1 hcu1
  -- a tag with no open producer has no references at all (invariant href)
  have hinit : ∀ tag, producerOpen (producerOfTag cu.media tag) = false →
      NoRef room.clients u tag := by
    intro tag hop k c hmem _
    rcases ha : aget (consumersOfTag c.media tag) u with _ | x
    · rfl
    · have hiop := href (k, c) hmem tag (by rw [ha]; rfl)
      rw [hiop] at hop
      cases hop
  have hchain : ∀ tag, NoRef room.clients u tag →
      NoRef (closeMediaClient room.clients u).1 u tag := by
    intro tag h
    exact NoRef_closeConsumerTransportStep _ u tag
      (NoRef_closeProducerTransportStep _ u tag
        (NoRef_closeProducerStep _ u MediaTag.audio u tag
          (NoRef_closeProducerStep _ u MediaTag.video u tag h)))
  have hNRall : ∀ tag, NoRef (closeMediaClient room.clients u).1 u tag := by
    intro tag
    cases tag with
    | video =>
      by_cases hop : producerOpen (producerOfTag cu.media MediaTag.video) = true
      · have h1 := closeProducerStep_establish room.clients u MediaTag.video
          cu hu hop
        exact NoRef_closeConsumerTransportStep _ u _
          (NoRef_closeProducerTransportStep _ u _
            (NoRef_closeProducerStep _ u MediaTag.audio u _ h1))
      · exact hchain _ (hinit _ (Bool.eq_false_iff.mpr hop))
    | audio =>
      by_cases hop : producerOpen (producerOfTag cu.media MediaTag.audio) = true
      · have hopen1 : producerOpen (producerOfTag cu1.media MediaTag.audio) =
            true := by
          rw [hp1 MediaTag.audio (by decide)]
          exact hop
        have h2 := closeProducerStep_establish _ u MediaTag.audio cu1 hcu1 hopen1
        exact NoRef_closeConsumerTransportStep _ u _
          (NoRef_closeProducerTransportStep _ u _ h2)
      · exact hchain _ (hinit _ (Bool.eq_false_iff.mpr hop))
    | screenMedia =>
      by_cases hop : producerOpen (producerOfTag cu.media MediaTag.screenMedia) =
          true
      · obtain ⟨t, htp, htc⟩ := hscr hop
        have hopen2 : producerOpen cu2.media.producerScreen = true := by
          have e2 := hp2 MediaTag.screenMedia (by decide)
          have e1 := hp1 MediaTag.screenMedia (by decide)
          show producerOpen (producerOfTag cu2.media MediaTag.screenMedia) = true
          rw [e2, e1]
          exact hop
        have htp2 : cu2.media.producerTransport = some t := by
          rw [ht2p, ht1p]
          exact htp
        have h3 := closeProducerTransportStep_screen _ u cu2 t hcu2 hopen2
          htp2 htc
        exact NoRef_closeConsumerTransportStep _ u _ h3
      · exact hchain _ (hinit _ (Bool.eq_false_iff.mpr hop))
  refine ⟨?_, ?_, ?_⟩
  · rw [hrem1]
    exact aget_adel_self _ _
  · intro k c hmem tag
    rw [hrem1] at hmem
    have h2 := List.mem_filter.1 hmem
    have hkne : k ≠ u := by simpa using h2.2
    exact hNRall tag k c h2.1 hkne
  · rw [hrem2]
    have hA1 := closeProducerStep_evs room.clients u MediaTag.video
    have hA2 := closeProducerStep_evs
      (closeProducerStep room.clients u MediaTag.video).1 u MediaTag.audio
    have hA3 := closeProducerTransportStep_evs
      (closeProducerStep (closeProducerStep room.clients u MediaTag.video).1 u
        MediaTag.audio).1 u
    have hA4 := closeConsumerTransportStep_evs
      (closeProducerTransportStep (closeProducerStep (closeProducerStep
        room.clients u MediaTag.video).1 u MediaTag.audio).1 u).1 u
    -- names for the four event segments
    set A1 := (closeProducerStep room.clients u MediaTag.video).2 with hsA1
    set A2 := (closeProducerStep
      (closeProducerStep room.clients u MediaTag.video).1 u MediaTag.audio).2
      with hsA2
    set A3 := (closeProducerTransportStep
      (closeProducerStep (closeProducerStep room.clients u MediaTag.video).1 u
        MediaTag.audio).1 u).2 with hsA3
    set A4 := (closeConsumerTransportStep
      (closeProducerTransportStep (closeProducerStep (closeProducerStep
        room.clients u MediaTag.video).1 u MediaTag.audio).1 u).1 u).2
      with hsA4
    have htr : (closeMediaClient room.clients u).2 =
        A1 ++ A2 ++ A3 ++ A4 := by
      rw [hsA1, hsA2, hsA3, hsA4]
      rfl
    have hnc1 : ∀ ev ∈ A1 ++ A2 ++ A3, ∀ o p tag,
        ev ≠ CloseEv.consumer o p tag := by
      intro ev hev o p tag
      rcases List.mem_append.1 hev with h | h
      · rcases List.mem_append.1 h with h | h
        · rw [hA1 ev h]
          exact fun he => CloseEv.noConfusion he
        · rw [hA2 ev h]
          exact fun he => CloseEv.noConfusion he
      · rcases hA3 with h3 | ⟨evs3, h3, hpr3⟩
        · rw [h3] at h
          cases h
        · rw [h3] at h
          rcases List.mem_cons.1 h with h | h
          · rw [h]
            exact fun he => CloseEv.noConfusion he
          · obtain ⟨tg, rfl⟩ := hpr3 ev h
            exact fun he => CloseEv.noConfusion he
    rcases hA4 with h4 | ⟨evs4, h4, hcons4⟩
    · refine ⟨A1 ++ A2 ++ A3, [], ?_, ?_, ?_, ?_⟩
      · rw [htr, h4]
      · exact hnc1
      · intro ev hev
        cases hev
      · intro ev hev
        cases hev
    · refine ⟨A1 ++ A2 ++ A3 ++ [CloseEv.transport u TransportSide.consumerT],
        evs4, ?_, ?_, ?_, ?_⟩
      · rw [htr, h4, List.append_cons]
      · intro ev hev o p tag
        rcases List.mem_append.1 hev with h | h
        · exact hnc1 ev h o p tag
        · rcases List.mem_cons.1 h with h | h
          · rw [h]
            exact fun he => CloseEv.noConfusion he
          · cases h
      · intro ev hev o tag
        obtain ⟨p, tg, rfl⟩ := hcons4 ev hev
        exact fun he => CloseEv.noConfusion he
      · intro ev hev o s
        obtain ⟨p, tg, rfl⟩ := hcons4 ev hev
        exact fun he => CloseEv.noConfusion he

/-- C6 witness: removing "a" from `teardownRoom` deletes its entry. -/
theorem removeClient_spec_witness :
    aget teardownRoom.clients "a" = some teardownClientA ∧
    aget (removeClient teardownRoom "a").1.clients "a" = none :=
  ⟨by decide,
   (removeClient_spec teardownRoom "a" teardownClientA (by decide) (by decide)
     (fun hop => absurd hop (by decide))).1⟩

end MS
